import Mathlib

/-!
# Verification of the Linux Wi-Fi capture helper (capture_linux_wifi.c)

Shallow embedding of the channel grammar, channel controller, interface
naming, UUID derivation and capture dispatch loop of the Kismet Linux
Wi-Fi capture helper, together with proofs and refutations of the frozen
claims about it.

Conventions of the embedding:
* C `unsigned int` values parsed by `sscanf` are taken modulo `2 ^ 32`;
  leading-whitespace and sign handling of `%u` is not modelled (channel
  strings never carry either).
* Diagnostics sent through `cf_send_message` are modelled by their level
  only (`MsgFlag`); the formatted text is not modelled.
* External effects (backend calls, protocol sends) are recorded as an
  explicit action list.
-/

namespace KismetWifi

/-! ## Constants

Numeric values of the nl80211 / wireless-extensions enums used by the
source.  The headers (`nl80211.h`, `linux_wireless_control.h`,
`wifi_ht_channels.h`) are not part of the source tree; the values below
are the Linux kernel / Kismet values the source compiles against. -/

/-- NL80211_CHAN_NO_HT -/
def nl80211_chan_no_ht : Nat := 0
/-- NL80211_CHAN_HT40MINUS -/
def nl80211_chan_ht40minus : Nat := 2
/-- NL80211_CHAN_HT40PLUS -/
def nl80211_chan_ht40plus : Nat := 3
/-- NL80211_CHAN_WIDTH_80 -/
def nl80211_chan_width_80 : Nat := 3
/-- NL80211_CHAN_WIDTH_160 -/
def nl80211_chan_width_160 : Nat := 5
/-- NL80211_CHAN_WIDTH_5 -/
def nl80211_chan_width_5 : Nat := 6
/-- NL80211_CHAN_WIDTH_10 -/
def nl80211_chan_width_10 : Nat := 7
/-- LINUX_WLEXT_MONITOR (IW_MODE_MONITOR) -/
def linux_wlext_monitor : Int := 6
/-- IFNAMSIZ on Linux -/
def IFNAMSIZ : Nat := 16

/-- Message severity flags of the capture framework (`MSGFLAG_INFO`,
`MSGFLAG_ERROR`).  Only the level is modelled. -/
inductive MsgFlag where
  | info
  | error
deriving DecidableEq, Repr

/-! ## Data model -/

/-- `local_channel_t` from the source: the parsed form of a channel
string.  All fields are C `unsigned int`; booleans are 0/1 integers as
in the source. -/
structure local_channel_t where
  control_freq : Nat
  chan_type : Nat
  chan_width : Nat
  unusual_center1 : Nat
  center_freq1 : Nat
  center_freq2 : Nat
deriving DecidableEq, Repr

/-- The all-zero descriptor produced by `memset(ret_localchan, 0, ...)`. -/
def zero_channel : local_channel_t :=
  { control_freq := 0, chan_type := 0, chan_width := 0,
    unusual_center1 := 0, center_freq1 := 0, center_freq2 := 0 }

/-- Modelled from the spec: one row of the static HT/VHT capability
table `wifi_ht_channels` (from the missing header `wifi_ht_channels.h`).
The spec describes it as a read-only table mapping a Wi-Fi channel
number and its MHz frequency to a flag set indicating which of
{HT40-, HT40+, VHT80, VHT160} it supports and to the table-derived
80 MHz and 160 MHz center frequencies.  The flag bits are modelled as
four booleans. -/
structure wifi_channel where
  chan : Nat
  freq : Nat
  flag_ht40minus : Bool
  flag_ht40plus : Bool
  flag_ht80 : Bool
  flag_ht160 : Bool
  freq80 : Nat
  freq160 : Nat
deriving DecidableEq, Repr

/-- An entry matches the parsed number when its channel number or its
frequency equals it (`wifi_ht_channels[ci].chan == parsechan ||
wifi_ht_channels[ci].freq == parsechan`). -/
def chanMatches (e : wifi_channel) (n : Nat) : Bool :=
  e.chan = n || e.freq = n

/-- Modelled from the spec: a concrete instance of the HT/VHT table
holding the channels the spec's boundary cases use (6, 36, 100, 165).
Channel 36 carries HT40+/VHT80/VHT160 but not HT40-; channel 100
carries VHT160 with 160 MHz center 5250; channel 165 carries no
wide-channel flags. -/
def wifi_ht_channels : List wifi_channel :=
  [ { chan := 1, freq := 2412, flag_ht40minus := false, flag_ht40plus := true,
      flag_ht80 := false, flag_ht160 := false, freq80 := 0, freq160 := 0 },
    { chan := 6, freq := 2437, flag_ht40minus := true, flag_ht40plus := true,
      flag_ht80 := false, flag_ht160 := false, freq80 := 0, freq160 := 0 },
    { chan := 36, freq := 5180, flag_ht40minus := false, flag_ht40plus := true,
      flag_ht80 := true, flag_ht160 := true, freq80 := 5210, freq160 := 5250 },
    { chan := 100, freq := 5500, flag_ht40minus := false, flag_ht40plus := true,
      flag_ht80 := true, flag_ht160 := true, freq80 := 5530, freq160 := 5250 },
    { chan := 165, freq := 5825, flag_ht40minus := false, flag_ht40plus := false,
      flag_ht80 := false, flag_ht160 := false, freq80 := 0, freq160 := 0 } ]

/-! ## Decimal scanning and printing

`sscanf`'s `%u` conversion and `snprintf`'s `%u` output, modelled over
`List Char`. -/

/-- Value of a digit character. -/
def digitVal (c : Char) : Nat := c.toNat - 48

/-- Digit character of a value below 10. -/
def digitChar (d : Nat) : Char := Char.ofNat (48 + d)

/-- Accumulate the value of a digit string (left fold, as decimal
scanning does). -/
def digitsValAux (a : Nat) (cs : List Char) : Nat :=
  cs.foldl (fun a c => a * 10 + digitVal c) a

/-- Value of a digit string. -/
def digitsVal (cs : List Char) : Nat := digitsValAux 0 cs

/-- `%u`: consume a maximal nonempty digit prefix; the stored
`unsigned int` is the value modulo `2 ^ 32`. -/
def sscanf_u (cs : List Char) : Option (Nat × List Char) :=
  let ds := cs.takeWhile Char.isDigit
  if ds.isEmpty then none
  else some (digitsVal ds % 2 ^ 32, cs.dropWhile Char.isDigit)

/-- Decimal digits of a positive number, most significant first,
prepended to `acc`.  The first argument is fuel, structurally
decreasing so that the definition computes; `natToDec` supplies `n`
itself, which always suffices since a number has at most as many
digits as its value. -/
def natToDecAux : Nat → Nat → List Char → List Char
  | _, 0, acc => acc
  | 0, _ + 1, acc => acc
  | fuel + 1, n + 1, acc =>
    natToDecAux fuel ((n + 1) / 10) (digitChar ((n + 1) % 10) :: acc)

/-- `%u` output of `snprintf`: decimal digits of `n`. -/
def natToDec (n : Nat) : List Char :=
  if n = 0 then ['0'] else natToDecAux n n []

/-- ASCII-only lower-casing, as C `tolower` in the default locale. -/
def lowerAscii (c : Char) : Char :=
  if 'A' ≤ c && c ≤ 'Z' then Char.ofNat (c.toNat + 32) else c

/-- `strcasecmp(..) == 0` against a fixed pattern. -/
def caseEq (a b : List Char) : Bool :=
  a.map lowerAscii = b.map lowerAscii

/-- Take up to `k` leading characters satisfying `p` (the bounded
scanset `%15[^-]`). -/
def takeCount (k : Nat) (p : Char → Bool) : List Char → List Char
  | [] => []
  | c :: cs =>
    match k with
    | 0 => []
    | k + 1 => if p c then c :: takeCount k p cs else []

/-- The scanset `[^-]`: any character other than `-`. -/
def notDash (c : Char) : Bool := c ≠ '-'

/-! ## The channel grammar (`chantranslate_callback`,
`local_channel_to_str`) -/

/-- Result of `sscanf(chanstr, "%uHT40%c", &parsechan, &mod)` when it
returns 2: the parsed number and the modifier character.  The literal
`HT40` is matched case-sensitively, and `%c` requires one further
character. -/
def scanHT40 (cs : List Char) : Option (Nat × Char) :=
  match sscanf_u cs with
  | none => none
  | some (n, rest) =>
    if "HT40".toList.isPrefixOf rest then
      match rest.drop 4 with
      | c :: _ => some (n, c)
      | [] => none
    else none

/-- Result of `sscanf(chanstr, "%u%15[^-]-%u", ...)`:
`r1` for return value 1 (number only, the scanset matched nothing),
`r2` for return 2 (number and suffix), `r3` for return 3 (number,
suffix, and the center value after the literal `-`). -/
inductive Pat2 where
  | r1 (n : Nat)
  | r2 (n : Nat) (ty : List Char)
  | r3 (n : Nat) (ty : List Char) (c1 : Nat)
deriving DecidableEq, Repr

/-- The second scan pattern of the parser. -/
def scanPat2 (cs : List Char) : Option Pat2 :=
  match sscanf_u cs with
  | none => none
  | some (n, rest) =>
    let ty := takeCount 15 notDash rest
    if ty.isEmpty then some (.r1 n)
    else
      match rest.drop ty.length with
      | '-' :: rest2 =>
        match sscanf_u rest2 with
        | some (c1, _) => some (.r3 n ty c1)
        | none => some (.r2 n ty)
      | _ => some (.r2 n ty)

/-- The informational diagnostics of the HT40 branch: one message per
table entry that matches the channel but lacks the requested HT40 flag.
The source iterates the whole table in both branches (one loop is
written with the `MAX_WIFI_HT_CHANNEL` constant, the other with
`sizeof`; per the spec both mean the whole table). -/
def ht40Msgs (table : List wifi_channel) (n : Nat)
    (flag : wifi_channel → Bool) : List MsgFlag :=
  (table.filter (fun e => chanMatches e n && !flag e)).map (fun _ => MsgFlag.info)

/-- The VHT table scan of the parser: walk the whole table; at every
entry matching `n`, abort with an error when the required flag is
missing, otherwise overwrite `(control_freq, center_freq1)` with the
entry's frequency and derived center.  `none` models the
`free; return NULL` path. -/
def vhtLookup (flag : wifi_channel → Bool) (fd : wifi_channel → Nat)
    (n : Nat) : List wifi_channel → Nat × Nat → Option (Nat × Nat)
  | [], st => some st
  | e :: rest, st =>
    if chanMatches e n then
      if flag e then vhtLookup flag fd n rest (e.freq, fd e)
      else none
    else vhtLookup flag fd n rest st

/-- Descriptor with only `control_freq` set (the "basic channel"
outcome of the parser). -/
def bareChan (n : Nat) : local_channel_t :=
  { zero_channel with control_freq := n }

/-- Descriptor of the HT40 branch: `control_freq` and `chan_type`. -/
def ht40Chan (n ct : Nat) : local_channel_t :=
  { zero_channel with control_freq := n, chan_type := ct }

/-- Descriptor of the W5/W10 branches: `control_freq` and
`chan_width`. -/
def widthChan (n w : Nat) : local_channel_t :=
  { zero_channel with control_freq := n, chan_width := w }

/-- Descriptor of the table-derived VHT branches: `control_freq`,
`chan_width` and `center_freq1`. -/
def vhtChan (cf w f1 : Nat) : local_channel_t :=
  { zero_channel with control_freq := cf, chan_width := w, center_freq1 := f1 }

/-- Descriptor of the hardcoded-center VHT branches: additionally
`unusual_center1 = 1`. -/
def vhtChanU (n w c1 : Nat) : local_channel_t :=
  { zero_channel with
      control_freq := n, chan_width := w,
      unusual_center1 := 1, center_freq1 := c1 }

/-- `chantranslate_callback` over a character list: parse a channel
string into a descriptor, collecting the diagnostic levels emitted
along the way.  `none` models returning `NULL`. -/
def chantranslateCore (table : List wifi_channel) (cs : List Char) :
    Option local_channel_t × List MsgFlag :=
  match scanHT40 cs with
  | some (n, mod) =>
    if mod = '-' then
      (some (ht40Chan n nl80211_chan_ht40minus),
       ht40Msgs table n wifi_channel.flag_ht40minus)
    else if mod = '+' then
      (some (ht40Chan n nl80211_chan_ht40plus),
       ht40Msgs table n wifi_channel.flag_ht40plus)
    else
      (some (bareChan n), [MsgFlag.info])
  | none =>
    match scanPat2 cs with
    | none => (none, [MsgFlag.error])
    | some (.r1 n) => (some (bareChan n), [])
    | some (.r2 n ty) =>
      if caseEq ty "w5".toList then
        (some (widthChan n nl80211_chan_width_5), [])
      else if caseEq ty "w10".toList then
        (some (widthChan n nl80211_chan_width_10), [])
      else if caseEq ty "vht80".toList then
        match vhtLookup wifi_channel.flag_ht80 wifi_channel.freq80 n table (n, 0) with
        | none => (none, [MsgFlag.error])
        | some (cf, f1) => (some (vhtChan cf nl80211_chan_width_80 f1), [])
      else if caseEq ty "vht160".toList then
        match vhtLookup wifi_channel.flag_ht160 wifi_channel.freq160 n table (n, 0) with
        | none => (none, [MsgFlag.error])
        | some (cf, f1) => (some (vhtChan cf nl80211_chan_width_160 f1), [])
      else
        (some (bareChan n), [MsgFlag.info])
    | some (.r3 n ty c1) =>
      if caseEq ty "w5".toList then
        (some (widthChan n nl80211_chan_width_5), [])
      else if caseEq ty "w10".toList then
        (some (widthChan n nl80211_chan_width_10), [])
      else if caseEq ty "vht80".toList then
        (some (vhtChanU n nl80211_chan_width_80 c1), [])
      else if caseEq ty "vht160".toList then
        (some (vhtChanU n nl80211_chan_width_160 c1), [])
      else
        (some (bareChan n), [MsgFlag.info])

/-- `chantranslate_callback` on a string. -/
def chantranslate_callback (table : List wifi_channel) (chanstr : String) :
    Option local_channel_t × List MsgFlag :=
  chantranslateCore table chanstr.toList

/-- `local_channel_to_str` over character lists. -/
def channelToStrCore (chan : local_channel_t) : List Char :=
  if chan.chan_type = 0 && chan.chan_width = 0 then
    natToDec chan.control_freq
  else if chan.chan_type = nl80211_chan_ht40minus then
    natToDec chan.control_freq ++ "HT40-".toList
  else if chan.chan_type = nl80211_chan_ht40plus then
    natToDec chan.control_freq ++ "HT40+".toList
  else if chan.chan_width = nl80211_chan_width_5 then
    natToDec chan.control_freq ++ "W5".toList
  else if chan.chan_width = nl80211_chan_width_10 then
    natToDec chan.control_freq ++ "W10".toList
  else if chan.chan_width = nl80211_chan_width_80 then
    if chan.unusual_center1 ≠ 0 then
      natToDec chan.control_freq ++ "VHT80-".toList ++ natToDec chan.center_freq1
    else
      natToDec chan.control_freq ++ "VHT80".toList
  else if chan.chan_width = nl80211_chan_width_160 then
    if chan.unusual_center1 ≠ 0 then
      natToDec chan.control_freq ++ "VHT160-".toList ++ natToDec chan.center_freq1
    else
      natToDec chan.control_freq ++ "VHT160".toList
  else
    natToDec chan.control_freq

/-- `local_channel_to_str`: serialize a descriptor back to a string. -/
def local_channel_to_str (chan : local_channel_t) : String :=
  ⟨channelToStrCore chan⟩

/-! ## The channel controller (`chancontrol_callback`) -/

/-- The scalar fields of `local_wifi_t` (the InterfaceState).  The
pointer fields (`pd`, the three `mac80211_*` handles) carry no data the
claims are about and are not modelled; `seq_channel_failure` is the
C `unsigned int` sequential-failure counter. -/
structure local_wifi_t where
  interface : String
  cap_interface : String
  datalink_type : Int
  override_dlt : Int
  use_mac80211 : Int
  seq_channel_failure : Nat
  reset_nm_management : Int
deriving DecidableEq, Repr

/-- The initializer of `local_wifi` in `main` (string fields stand for
the C `NULL` pointers). -/
def main_local_wifi : local_wifi_t :=
  { interface := "", cap_interface := "", datalink_type := -1,
    override_dlt := -1, use_mac80211 := 1, seq_channel_failure := 0,
    reset_nm_management := 0 }

/-- Externally visible actions of the channel controller: the backend
call it dispatches, and the framework sends it performs. -/
inductive ChanAction where
  | iwconfig_set_channel (control_freq : Nat)
  | mac80211_set_frequency (control_freq chan_width center1 center2 : Nat)
  | mac80211_set_channel (control_freq chan_type : Nat)
  | send_message (flag : MsgFlag)
  | send_error
  | send_configresp_channel (seqno : Nat) (success : Nat) (chanstr : String)
deriving DecidableEq, Repr

/-- `chancontrol_callback`.  `backend_r` is the return value of
whichever backend channel-set call the controller performs (`r` in the
source); a negative value is a failure.  Returns the C return value,
the updated state and the actions performed, in order. -/
def chancontrol_callback (st : local_wifi_t) (seqno : Nat)
    (privchan : Option local_channel_t) (backend_r : Int) :
    Int × local_wifi_t × List ChanAction :=
  match privchan with
  | none => (0, st, [])
  | some channel =>
    if st.use_mac80211 = 0 then
      let call := ChanAction.iwconfig_set_channel channel.control_freq
      if backend_r < 0 then
        if st.seq_channel_failure < 10 ∧ seqno = 0 then
          (0, st, [call, .send_message .error])
        else if seqno = 0 then
          (-1, st, [call, .send_error])
        else
          (-1, st, [call])
      else
        if seqno ≠ 0 then
          (0, { st with seq_channel_failure := 0 },
           [call, .send_configresp_channel seqno 1 (local_channel_to_str channel)])
        else
          (0, { st with seq_channel_failure := 0 }, [call])
    else
      let call :=
        if channel.chan_width ≠ 0 then
          ChanAction.mac80211_set_frequency channel.control_freq
            channel.chan_width channel.center_freq1 channel.center_freq2
        else
          ChanAction.mac80211_set_channel channel.control_freq channel.chan_type
      if backend_r < 0 then
        if st.seq_channel_failure < 10 ∧ seqno = 0 then
          (0, st, [call, .send_message .error])
        else if seqno = 0 then
          (-1, st, [call, .send_error])
        else
          (-1, st, [call])
      else
        (0, { st with seq_channel_failure := 0 }, [call])

/-- Run the controller `k` times in hop context (`seqno = 0`) with a
channel and an always-failing backend, collecting the return values. -/
def chancontrolFailRun (ch : local_channel_t) :
    Nat → local_wifi_t → List Int × local_wifi_t
  | 0, st => ([], st)
  | k + 1, st =>
    let (r, st2, _) := chancontrol_callback st 0 (some ch) (-1)
    let (rs, stf) := chancontrolFailRun ch k st2
    (r :: rs, stf)

/-! ## The capture-loop dispatch callback (`pcap_dispatch_cb`) -/

/-- Classified return of `cf_send_data`: negative (error), zero
(buffer full) or positive (ok). -/
inductive SendResult where
  | err
  | full
  | ok
deriving DecidableEq, Repr

/-- Actions of the dispatch callback. -/
inductive CapAction where
  | cf_send_data
  | pcap_breakloop
  | cf_send_error
  | cf_handler_spindown
  | wait_ringbuffer
deriving DecidableEq, Repr

/-- `pcap_dispatch_cb`'s `while (1)` send loop for a single delivered
packet.  The list supplies the successive results of `cf_send_data`;
each iteration consumes one.  `none` means the loop is still running
when the supplied results run out. -/
def pcap_dispatch_cb : List SendResult → Option (List CapAction)
  | [] => none
  | .err :: rest =>
    (pcap_dispatch_cb rest).map
      (fun t => .cf_send_data :: .pcap_breakloop :: .cf_send_error ::
                .cf_handler_spindown :: t)
  | .full :: rest =>
    (pcap_dispatch_cb rest).map (fun t => .cf_send_data :: .wait_ringbuffer :: t)
  | .ok :: _ => some [.cf_send_data]

/-! ## Monitor-interface naming (`find_next_ifnum` and the
vif-derivation fragment of `open_callback`) -/

/-- Loop body of `find_next_ifnum`: try indices `i, i+1, ...` for
`fuel` steps, returning the first one whose interface name does not
exist. -/
def findNextAux (p : Nat → Bool) : Nat → Nat → Option Nat
  | _, 0 => none
  | i, fuel + 1 => if p i then some i else findNextAux p (i + 1) fuel

/-- `find_next_ifnum`: the first `i < 100` such that no interface
named `basename ++ i` exists (`if_nametoindex(ifname) == 0`), else
`none` (the C `-1`).  `ifexists` is the environment's
`if_nametoindex(..) != 0`. -/
def find_next_ifnum (ifexists : String → Bool) (basename : String) : Option Nat :=
  findNextAux (fun i => !ifexists (basename ++ (⟨natToDec i⟩ : String))) 0 100

/-- Outcome of deriving a monitor vif name in `open_callback`. -/
inductive MonNameResult where
  | ok (name : String)
  | fail_not_monitor
  | fail_exhausted
deriving DecidableEq, Repr

/-- The monitor-name derivation of `open_callback`, entered when no
`vif=` flag was given and no existing monitor interface was adopted.
`getMode` is the environment's `iwconfig_get_mode` (`none` when the
ioctl fails, e.g. the interface does not exist). -/
def derive_mon_vif (ifexists : String → Bool) (getMode : String → Option Int)
    (interface : String) : MonNameResult :=
  if interface.length + 3 ≥ IFNAMSIZ then
    match find_next_ifnum ifexists "kismon" with
    | none => .fail_exhausted
    | some i => .ok ("kismon" ++ (⟨natToDec i⟩ : String))
  else
    let ifnam := interface ++ "mon"
    match getMode ifnam with
    | some m => if m ≠ linux_wlext_monitor then .fail_not_monitor else .ok ifnam
    | none => .ok ifnam

/-! ## UUID derivation (`open_callback`, lines 580-587) -/

/-- Modelled from the spec: `adler32_csum` lives in the capture
framework, which is not part of the source tree; the spec pins it to
"the 32-bit Adler checksum of the ASCII literal".  Standard Adler-32:
`a` starts at 1, `b` at 0; per byte `a := (a + byte) % 65521`,
`b := (b + a) % 65521`; the checksum is `b * 2^16 + a`. -/
def adler32_csum (data : List Nat) : Nat :=
  let s := data.foldl
    (fun (p : Nat × Nat) b =>
      let a := (p.1 + b) % 65521
      (a, (p.2 + a) % 65521))
    (1, 0)
  s.2 * 65536 + s.1

/-- The ASCII bytes of the literal `"kismet_cap_linux_wifi"`. -/
def kismet_cap_literal : List Nat :=
  "kismet_cap_linux_wifi".toList.map Char.toNat

/-- One upper-case hexadecimal digit. -/
def hexDigitU (d : Nat) : Char :=
  if d < 10 then Char.ofNat (48 + d) else Char.ofNat (55 + d)

/-- `%02X` of a byte: exactly two upper-case hex digits, zero-padded. -/
def toHex2 (m : Nat) : List Char :=
  [hexDigitU (m / 16 % 16), hexDigitU (m % 16)]

/-- `%08X` of a 32-bit value: exactly eight upper-case hex digits,
zero-padded. -/
def toHex8 (m : Nat) : List Char :=
  [hexDigitU (m / 16 ^ 7 % 16), hexDigitU (m / 16 ^ 6 % 16),
   hexDigitU (m / 16 ^ 5 % 16), hexDigitU (m / 16 ^ 4 % 16),
   hexDigitU (m / 16 ^ 3 % 16), hexDigitU (m / 16 ^ 2 % 16),
   hexDigitU (m / 16 % 16), hexDigitU (m % 16)]

/-- `open_callback`'s UUID construction:
`snprintf("%08X-0000-0000-0000-%02X%02X%02X%02X%02X%02X", adler & 0xFFFFFFFF, hw[0] & 0xFF, ...)`. -/
def open_uuid (b0 b1 b2 b3 b4 b5 : Nat) : String :=
  ⟨toHex8 (adler32_csum kismet_cap_literal % 2 ^ 32) ++
   "-0000-0000-0000-".toList ++
   toHex2 (b0 % 256) ++ toHex2 (b1 % 256) ++ toHex2 (b2 % 256) ++
   toHex2 (b3 % 256) ++ toHex2 (b4 % 256) ++ toHex2 (b5 % 256)⟩

/-! ## Lemmas: decimal printing and scanning -/

/-- The head of `cs`, if any, fails `p`. -/
def headFails (p : Char → Bool) (cs : List Char) : Bool :=
  match cs with
  | [] => true
  | c :: _ => !p c

/-- No leading decimal digit. -/
def noLeadingDigit (cs : List Char) : Bool :=
  headFails Char.isDigit cs

theorem digitChar_isDigit {d : Nat} (h : d < 10) : (digitChar d).isDigit = true := by
  interval_cases d <;> decide

theorem digitVal_digitChar {d : Nat} (h : d < 10) : digitVal (digitChar d) = d := by
  interval_cases d <;> decide

theorem natToDecAux_append (fuel n : Nat) (acc : List Char) :
    natToDecAux fuel n acc = natToDecAux fuel n [] ++ acc := by
  induction fuel generalizing n acc with
  | zero => cases n <;> simp [natToDecAux]
  | succ f ih =>
    cases n with
    | zero => simp [natToDecAux]
    | succ m =>
      rw [natToDecAux, natToDecAux,
        ih ((m + 1) / 10) (digitChar ((m + 1) % 10) :: acc),
        ih ((m + 1) / 10) [digitChar ((m + 1) % 10)]]
      simp

theorem natToDecAux_all_digits (fuel n : Nat) :
    ∀ c ∈ natToDecAux fuel n [], c.isDigit = true := by
  induction fuel generalizing n with
  | zero => cases n <;> simp [natToDecAux]
  | succ f ih =>
    cases n with
    | zero => simp [natToDecAux]
    | succ m =>
      rw [natToDecAux, natToDecAux_append]
      intro c hc
      rcases List.mem_append.mp hc with h | h
      · exact ih _ c h
      · rcases List.mem_singleton.mp h with rfl
        exact digitChar_isDigit (Nat.mod_lt _ (by omega))

theorem natToDec_all_digits (n : Nat) : ∀ c ∈ natToDec n, c.isDigit = true := by
  unfold natToDec
  split
  · intro c hc; rcases List.mem_singleton.mp hc with rfl; decide
  · exact natToDecAux_all_digits n n

theorem digitsValAux_append (a : Nat) (xs ys : List Char) :
    digitsValAux a (xs ++ ys) = digitsValAux (digitsValAux a xs) ys := by
  simp [digitsValAux, List.foldl_append]

theorem digitsVal_natToDecAux (fuel : Nat) :
    ∀ n, n ≤ fuel → digitsVal (natToDecAux fuel n []) = n := by
  induction fuel with
  | zero =>
    intro n hn
    have : n = 0 := by omega
    subst this
    simp [natToDecAux, digitsVal, digitsValAux]
  | succ f ih =>
    intro n hn
    cases n with
    | zero => simp [natToDecAux, digitsVal, digitsValAux]
    | succ m =>
      rw [natToDecAux, natToDecAux_append]
      have hdiv := Nat.div_lt_self (Nat.succ_pos m) (show 1 < 10 by omega)
      unfold digitsVal
      rw [digitsValAux_append]
      have h1 : digitsValAux 0 (natToDecAux f ((m + 1) / 10) []) = (m + 1) / 10 :=
        ih ((m + 1) / 10) (by omega)
      rw [h1]
      simp [digitsValAux, digitVal_digitChar (Nat.mod_lt (m + 1) (show 0 < 10 by omega))]
      omega

theorem digitsVal_natToDec (n : Nat) : digitsVal (natToDec n) = n := by
  unfold natToDec
  split
  · simp_all [digitsVal, digitsValAux, digitVal]
  · exact digitsVal_natToDecAux n n le_rfl

theorem natToDec_ne_nil (n : Nat) : natToDec n ≠ [] := by
  unfold natToDec
  split
  · simp
  · rename_i h
    match hn : n, h with
    | m + 1, _ =>
      rw [natToDecAux, natToDecAux_append]
      simp

theorem takeWhile_append_of_all (p : Char → Bool) (xs ys : List Char)
    (hxs : ∀ c ∈ xs, p c = true) (hys : headFails p ys = true) :
    (xs ++ ys).takeWhile p = xs := by
  induction xs with
  | nil =>
    simp only [List.nil_append]
    cases ys with
    | nil => rfl
    | cons c cs =>
      simp only [headFails, Bool.not_eq_true'] at hys
      simp [List.takeWhile_cons, hys]
  | cons c cs ih =>
    have hc : p c = true := hxs c (List.mem_cons_self c cs)
    simp only [List.cons_append, List.takeWhile_cons, hc, if_true]
    rw [ih (fun d hd => hxs d (List.mem_cons_of_mem c hd))]

theorem dropWhile_append_of_all (p : Char → Bool) (xs ys : List Char)
    (hxs : ∀ c ∈ xs, p c = true) (hys : headFails p ys = true) :
    (xs ++ ys).dropWhile p = ys := by
  induction xs with
  | nil =>
    simp only [List.nil_append]
    cases ys with
    | nil => rfl
    | cons c cs =>
      simp only [headFails, Bool.not_eq_true'] at hys
      simp [List.dropWhile_cons, hys]
  | cons c cs ih =>
    have hc : p c = true := hxs c (List.mem_cons_self c cs)
    simp only [List.cons_append, List.dropWhile_cons, hc, if_true]
    exact ih (fun d hd => hxs d (List.mem_cons_of_mem c hd))

/-- `%u` applied to a printed decimal followed by a non-digit rest. -/
theorem sscanf_u_dec (n : Nat) (rest : List Char)
    (h : noLeadingDigit rest = true) :
    sscanf_u (natToDec n ++ rest) = some (n % 2 ^ 32, rest) := by
  unfold sscanf_u
  rw [takeWhile_append_of_all Char.isDigit _ _ (natToDec_all_digits n) h,
    dropWhile_append_of_all Char.isDigit _ _ (natToDec_all_digits n) h]
  simp [List.isEmpty_iff, natToDec_ne_nil n, digitsVal_natToDec]

/-- `%u` applied to a printed decimal of an in-range value. -/
theorem sscanf_u_dec_lt {n : Nat} (rest : List Char)
    (h : noLeadingDigit rest = true) (hn : n < 2 ^ 32) :
    sscanf_u (natToDec n ++ rest) = some (n, rest) := by
  rw [sscanf_u_dec n rest h, Nat.mod_eq_of_lt hn]

/-- Any successful `%u` scan yields a value below `2 ^ 32`. -/
theorem sscanf_u_lt {cs : List Char} {n : Nat} {rest : List Char}
    (h : sscanf_u cs = some (n, rest)) : n < 2 ^ 32 := by
  unfold sscanf_u at h
  by_cases hds : (cs.takeWhile Char.isDigit).isEmpty
  · simp [hds] at h
  · simp [hds] at h
    obtain ⟨h1, -⟩ := h
    omega

/-- A failed `%u` scan: nothing to consume. -/
theorem sscanf_u_none {cs : List Char} (h : noLeadingDigit cs = true) :
    sscanf_u cs = none := by
  cases cs with
  | nil => rfl
  | cons c cs' =>
    simp only [noLeadingDigit, headFails, Bool.not_eq_true'] at h
    simp [sscanf_u, List.takeWhile_cons, h]

/-- `%u` on a bare printed decimal. -/
theorem sscanf_u_dec_nil {n : Nat} (hn : n < 2 ^ 32) :
    sscanf_u (natToDec n) = some (n, []) := by
  have h := sscanf_u_dec_lt (n := n) [] rfl hn
  simpa using h

/-- `headFails` only looks at the head. -/
theorem headFails_append {p : Char → Bool} {xs : List Char} (ys : List Char)
    (h : xs ≠ []) : headFails p (xs ++ ys) = headFails p xs := by
  cases xs with
  | nil => exact absurd rfl h
  | cons c cs => rfl

/-! ## Lemmas: the scan patterns -/

theorem scanHT40_lt {cs : List Char} {n : Nat} {c : Char}
    (h : scanHT40 cs = some (n, c)) : n < 2 ^ 32 := by
  unfold scanHT40 at h
  cases hu : sscanf_u cs with
  | none => rw [hu] at h; exact absurd h (by simp)
  | some p =>
    rcases p with ⟨m, rest⟩
    rw [hu] at h
    dsimp only at h
    have hm := sscanf_u_lt hu
    by_cases hpre : ("HT40".toList.isPrefixOf rest) = true
    · simp only [hpre, if_true] at h
      cases hd : rest.drop 4 with
      | nil => rw [hd] at h; exact absurd h (by simp)
      | cons c' tail =>
        rw [hd] at h
        rcases Option.some.inj h with h'
        rcases Prod.mk.injEq .. ▸ h' with ⟨h1, -⟩
        omega
    · rw [if_neg hpre] at h
      exact absurd h (by simp)

theorem isPrefixOf_append_self (xs ys : List Char) :
    xs.isPrefixOf (xs ++ ys) = true := by
  induction xs with
  | nil => cases ys <;> rfl
  | cons c cs ih =>
    show (c == c && cs.isPrefixOf (cs ++ ys)) = true
    simp [ih]

/-- `scanHT40` when the remainder after the number does not begin with
the literal `HT40`. -/
theorem scanHT40_dec_none (n : Nat) (rest : List Char)
    (hnd : noLeadingDigit rest = true)
    (hp : ("HT40".toList.isPrefixOf rest) = false) :
    scanHT40 (natToDec n ++ rest) = none := by
  unfold scanHT40
  rw [sscanf_u_dec n rest hnd]
  dsimp only
  rw [if_neg (by rw [hp]; exact Bool.false_ne_true)]

/-- `scanHT40` on number, literal `HT40` and a modifier character. -/
theorem scanHT40_dec_mod {n : Nat} (hn : n < 2 ^ 32) (c : Char) (tail : List Char) :
    scanHT40 (natToDec n ++ ("HT40".toList ++ c :: tail)) = some (n, c) := by
  unfold scanHT40
  have hnd : noLeadingDigit ("HT40".toList ++ c :: tail) = true := rfl
  rw [sscanf_u_dec_lt _ hnd hn]
  simp only [isPrefixOf_append_self, if_true]
  rfl

theorem takeCount_nil (k : Nat) (p : Char → Bool) : takeCount k p [] = [] := by
  cases k <;> rfl

/-- The bounded scanset consumes exactly `xs` when `xs` fits the bound,
all of `xs` satisfies the set and the next character (if any) does
not. -/
theorem takeCount_append_of_all (p : Char → Bool) :
    ∀ (xs : List Char) (k : Nat) (ys : List Char), xs.length ≤ k →
      (∀ c ∈ xs, p c = true) → headFails p ys = true →
      takeCount k p (xs ++ ys) = xs := by
  intro xs
  induction xs with
  | nil =>
    intro k ys _ _ hys
    cases ys with
    | nil => exact takeCount_nil k p
    | cons y ys' =>
      simp only [headFails, Bool.not_eq_true'] at hys
      cases k with
      | zero => rfl
      | succ k' => simp [takeCount, hys]
  | cons x xs' ih =>
    intro k ys hlen hall hys
    cases k with
    | zero => simp at hlen
    | succ k' =>
      have hx : p x = true := hall x (List.mem_cons_self x xs')
      show (if p x then x :: takeCount k' p (xs' ++ ys) else []) = x :: xs'
      simp only [hx, if_true]
      rw [ih k' ys (by simpa using hlen) (fun d hd => hall d (List.mem_cons_of_mem x hd)) hys]

/-- Dropping an exact prefix. -/
theorem drop_length_append (xs ys : List Char) :
    (xs ++ ys).drop xs.length = ys := by
  induction xs with
  | nil => rfl
  | cons c cs ih => simp [ih]

/-- `scanPat2` on a bare printed decimal: return value 1. -/
theorem scanPat2_dec_r1 {n : Nat} (hn : n < 2 ^ 32) :
    scanPat2 (natToDec n) = some (.r1 n) := by
  unfold scanPat2
  rw [sscanf_u_dec_nil hn]
  simp [takeCount_nil]

/-- `scanPat2` on number and suffix with nothing after: return value 2. -/
theorem scanPat2_dec_r2 {n : Nat} (hn : n < 2 ^ 32) (ty : List Char)
    (h1 : ty ≠ []) (h2 : ty.length ≤ 15) (h3 : ∀ c ∈ ty, notDash c = true)
    (h4 : noLeadingDigit ty = true) :
    scanPat2 (natToDec n ++ ty) = some (.r2 n ty) := by
  unfold scanPat2
  rw [sscanf_u_dec_lt _ h4 hn]
  have htc : takeCount 15 notDash ty = ty := by
    have := takeCount_append_of_all notDash ty 15 [] h2 h3 rfl
    simpa using this
  simp only [htc, List.isEmpty_iff, List.drop_length]
  split
  · exact absurd (by assumption) h1
  · rfl

/-- `scanPat2` on number, suffix, `-` and a second number: return
value 3. -/
theorem scanPat2_dec_r3 {n c1 : Nat} (hn : n < 2 ^ 32) (hc1 : c1 < 2 ^ 32)
    (ty : List Char) (h1 : ty ≠ []) (h2 : ty.length ≤ 15)
    (h3 : ∀ c ∈ ty, notDash c = true) (h4 : noLeadingDigit ty = true) :
    scanPat2 (natToDec n ++ (ty ++ '-' :: natToDec c1)) = some (.r3 n ty c1) := by
  unfold scanPat2
  have hnd : noLeadingDigit (ty ++ '-' :: natToDec c1) = true := by
    rw [noLeadingDigit, headFails_append _ h1]; exact h4
  rw [sscanf_u_dec_lt _ hnd hn]
  have htc : takeCount 15 notDash (ty ++ '-' :: natToDec c1) = ty :=
    takeCount_append_of_all notDash ty 15 ('-' :: natToDec c1) h2 h3 rfl
  simp only [htc, List.isEmpty_iff, drop_length_append]
  split
  · exact absurd (by assumption) h1
  · rw [sscanf_u_dec_nil hc1]

/-- Bounds on the numbers a successful `scanPat2` yields. -/
theorem scanPat2_bounds {cs : List Char} {p : Pat2} (h : scanPat2 cs = some p) :
    (match p with
     | .r1 n => n < 2 ^ 32
     | .r2 n _ => n < 2 ^ 32
     | .r3 n _ c1 => n < 2 ^ 32 ∧ c1 < 2 ^ 32) := by
  unfold scanPat2 at h
  cases hu : sscanf_u cs with
  | none => rw [hu] at h; exact absurd h (by simp)
  | some q =>
    rcases q with ⟨m, rest⟩
    rw [hu] at h
    have hm := sscanf_u_lt hu
    simp only at h
    split at h
    · rcases Option.some.inj h with rfl; exact hm
    · split at h
      · rename_i rest2 heq
        cases hu2 : sscanf_u rest2 with
        | none => rw [hu2] at h; rcases Option.some.inj h with rfl; exact hm
        | some q2 =>
          rcases q2 with ⟨c1v, r3⟩
          rw [hu2] at h
          rcases Option.some.inj h with rfl
          exact ⟨hm, sscanf_u_lt hu2⟩
      · rcases Option.some.inj h with rfl; exact hm

/-! ## Lemmas: the serializer on each parse-image shape -/

theorem chanstr_bare (n : Nat) : channelToStrCore (bareChan n) = natToDec n := by
  simp [channelToStrCore, bareChan, zero_channel]

theorem chanstr_ht40minus (n : Nat) :
    channelToStrCore (ht40Chan n nl80211_chan_ht40minus) =
      natToDec n ++ "HT40-".toList := by
  simp [channelToStrCore, ht40Chan, zero_channel, nl80211_chan_ht40minus]

theorem chanstr_ht40plus (n : Nat) :
    channelToStrCore (ht40Chan n nl80211_chan_ht40plus) =
      natToDec n ++ "HT40+".toList := by
  simp [channelToStrCore, ht40Chan, zero_channel, nl80211_chan_ht40minus,
    nl80211_chan_ht40plus]

theorem chanstr_w5 (n : Nat) :
    channelToStrCore (widthChan n nl80211_chan_width_5) =
      natToDec n ++ "W5".toList := by
  simp [channelToStrCore, widthChan, zero_channel, nl80211_chan_ht40minus,
    nl80211_chan_ht40plus, nl80211_chan_width_5]

theorem chanstr_w10 (n : Nat) :
    channelToStrCore (widthChan n nl80211_chan_width_10) =
      natToDec n ++ "W10".toList := by
  simp [channelToStrCore, widthChan, zero_channel, nl80211_chan_ht40minus,
    nl80211_chan_ht40plus, nl80211_chan_width_5, nl80211_chan_width_10]

theorem chanstr_vht80 (cf f1 : Nat) :
    channelToStrCore (vhtChan cf nl80211_chan_width_80 f1) =
      natToDec cf ++ "VHT80".toList := by
  simp [channelToStrCore, vhtChan, zero_channel, nl80211_chan_ht40minus,
    nl80211_chan_ht40plus, nl80211_chan_width_5, nl80211_chan_width_10,
    nl80211_chan_width_80]

theorem chanstr_vht160 (cf f1 : Nat) :
    channelToStrCore (vhtChan cf nl80211_chan_width_160 f1) =
      natToDec cf ++ "VHT160".toList := by
  simp [channelToStrCore, vhtChan, zero_channel, nl80211_chan_ht40minus,
    nl80211_chan_ht40plus, nl80211_chan_width_5, nl80211_chan_width_10,
    nl80211_chan_width_80, nl80211_chan_width_160]

theorem chanstr_vht80u (n c1 : Nat) :
    channelToStrCore (vhtChanU n nl80211_chan_width_80 c1) =
      natToDec n ++ ("VHT80".toList ++ '-' :: natToDec c1) := by
  simp [channelToStrCore, vhtChanU, zero_channel, nl80211_chan_ht40minus,
    nl80211_chan_ht40plus, nl80211_chan_width_5, nl80211_chan_width_10,
    nl80211_chan_width_80]

theorem chanstr_vht160u (n c1 : Nat) :
    channelToStrCore (vhtChanU n nl80211_chan_width_160 c1) =
      natToDec n ++ ("VHT160".toList ++ '-' :: natToDec c1) := by
  simp [channelToStrCore, vhtChanU, zero_channel, nl80211_chan_ht40minus,
    nl80211_chan_ht40plus, nl80211_chan_width_5, nl80211_chan_width_10,
    nl80211_chan_width_80, nl80211_chan_width_160]

/-! ## Lemmas: the VHT table scan -/

/-- Characterization of a successful table scan: either nothing
matched and the initial state survives, or the scan ends on some
matching, flag-carrying entry whose frequency and derived center are
the result. -/
theorem vhtLookup_spec (flag : wifi_channel → Bool) (fd : wifi_channel → Nat)
    (v : Nat) :
    ∀ (l : List wifi_channel) (st out : Nat × Nat),
      vhtLookup flag fd v l st = some out →
      ((∀ e ∈ l, chanMatches e v = false) ∧ out = st) ∨
      (∃ e ∈ l, chanMatches e v = true ∧ flag e = true ∧
        out = (e.freq, fd e)) := by
  intro l
  induction l with
  | nil =>
    intro st out h
    left
    exact ⟨by simp, (Option.some.inj h).symm⟩
  | cons e rest ih =>
    intro st out h
    unfold vhtLookup at h
    by_cases hm : chanMatches e v = true
    · rw [if_pos hm] at h
      by_cases hf : flag e = true
      · rw [if_pos hf] at h
        rcases ih _ _ h with ⟨hnone, rfl⟩ | ⟨e', he', hm', hf', rfl⟩
        · right; exact ⟨e, List.mem_cons_self e rest, hm, hf, rfl⟩
        · right; exact ⟨e', List.mem_cons_of_mem e he', hm', hf', rfl⟩
      · rw [if_neg hf] at h
        exact absurd h (by simp)
    · rw [if_neg hm] at h
      rcases ih _ _ h with ⟨hnone, rfl⟩ | ⟨e', he', hm', hf', rfl⟩
      · left
        refine ⟨?_, rfl⟩
        intro e'' he''
        rcases List.mem_cons.mp he'' with rfl | h''
        · exact Bool.not_eq_true _ ▸ hm
        · exact hnone e'' h''
      · right; exact ⟨e', List.mem_cons_of_mem e he', hm', hf', rfl⟩

/-- A scan over a table with no matching entry returns its initial
state. -/
theorem vhtLookup_no_match (flag : wifi_channel → Bool) (fd : wifi_channel → Nat)
    (v : Nat) :
    ∀ (l : List wifi_channel) (st : Nat × Nat),
      (∀ e ∈ l, chanMatches e v = false) →
      vhtLookup flag fd v l st = some st := by
  intro l
  induction l with
  | nil => intro st _; rfl
  | cons e rest ih =>
    intro st hall
    unfold vhtLookup
    rw [if_neg]
    · exact ih st (fun e' he' => hall e' (List.mem_cons_of_mem e he'))
    · rw [hall e (List.mem_cons_self e rest)]
      exact Bool.false_ne_true

/-- A scan over a table in which every matching entry is `e` (which
carries the flag) ends in `(e.freq, fd e)` once the state already
holds that value. -/
theorem vhtLookup_already (flag : wifi_channel → Bool) (fd : wifi_channel → Nat)
    (v : Nat) (e : wifi_channel) (hf : flag e = true) :
    ∀ (l : List wifi_channel),
      (∀ e' ∈ l, chanMatches e' v = true → e' = e) →
      vhtLookup flag fd v l (e.freq, fd e) = some (e.freq, fd e) := by
  intro l
  induction l with
  | nil => intro _; rfl
  | cons e' rest ih =>
    intro hall
    unfold vhtLookup
    by_cases hm : chanMatches e' v = true
    · rcases hall e' (List.mem_cons_self e' rest) hm with rfl
      rw [if_pos hm, if_pos hf]
      exact ih (fun e'' he'' => hall e'' (List.mem_cons_of_mem e' he''))
    · rw [if_neg hm]
      exact ih (fun e'' he'' => hall e'' (List.mem_cons_of_mem e' he''))

/-- A scan over a table that contains `e`, where every matching entry
is `e` and `e` both matches and carries the flag, ends in
`(e.freq, fd e)` from any initial state. -/
theorem vhtLookup_unique (flag : wifi_channel → Bool) (fd : wifi_channel → Nat)
    (v : Nat) (e : wifi_channel) (hf : flag e = true) (hm : chanMatches e v = true) :
    ∀ (l : List wifi_channel) (st : Nat × Nat), e ∈ l →
      (∀ e' ∈ l, chanMatches e' v = true → e' = e) →
      vhtLookup flag fd v l st = some (e.freq, fd e) := by
  intro l
  induction l with
  | nil => intro st hmem _; exact absurd hmem (by simp)
  | cons e' rest ih =>
    intro st hmem hall
    unfold vhtLookup
    by_cases hm' : chanMatches e' v = true
    · rcases hall e' (List.mem_cons_self e' rest) hm' with rfl
      rw [if_pos hm', if_pos hf]
      exact vhtLookup_already flag fd v e' hf rest
        (fun e'' he'' => hall e'' (List.mem_cons_of_mem e' he''))
    · rw [if_neg hm']
      have hne : e ≠ e' := fun h => hm' (h ▸ hm)
      rcases List.mem_cons.mp hmem with rfl | hmem'
      · exact absurd rfl hne
      · exact ih st hmem' (fun e'' he'' => hall e'' (List.mem_cons_of_mem e' he''))

/-- Frequencies identify table rows. -/
def freqInjective (table : List wifi_channel) : Prop :=
  ∀ e ∈ table, ∀ e' ∈ table, e.freq = e'.freq → e = e'

/-- No channel number of the table doubles as a frequency of the
table. -/
def chanFreqDisjoint (table : List wifi_channel) : Prop :=
  ∀ e ∈ table, ∀ e' ∈ table, e.chan ≠ e'.freq

/-- All frequencies of the table fit in an `unsigned int`. -/
def tableBounded (table : List wifi_channel) : Prop :=
  ∀ e ∈ table, e.freq < 2 ^ 32 ∧ e.freq80 < 2 ^ 32 ∧ e.freq160 < 2 ^ 32

instance (table : List wifi_channel) : Decidable (freqInjective table) := by
  unfold freqInjective; infer_instance

instance (table : List wifi_channel) : Decidable (chanFreqDisjoint table) := by
  unfold chanFreqDisjoint; infer_instance

instance (table : List wifi_channel) : Decidable (tableBounded table) := by
  unfold tableBounded; infer_instance

/-- Re-scanning the table at the control frequency a successful scan
chose reproduces its result. -/
theorem vhtLookup_stable {table : List wifi_channel}
    (hinj : freqInjective table) (hdis : chanFreqDisjoint table)
    (flag : wifi_channel → Bool) (fd : wifi_channel → Nat)
    {v cf f1 : Nat}
    (h : vhtLookup flag fd v table (v, 0) = some (cf, f1)) :
    vhtLookup flag fd cf table (cf, 0) = some (cf, f1) := by
  rcases vhtLookup_spec flag fd v table _ _ h with ⟨hnone, hout⟩ | ⟨e, he, hm, hf, hout⟩
  · rcases Prod.mk.injEq .. ▸ hout with ⟨rfl, rfl⟩
    exact vhtLookup_no_match flag fd cf table _ hnone
  · rcases Prod.mk.injEq .. ▸ hout with ⟨rfl, rfl⟩
    have hmatch : chanMatches e e.freq = true := by
      simp [chanMatches]
    have hall : ∀ e' ∈ table, chanMatches e' e.freq = true → e' = e := by
      intro e' he' hm'
      simp only [chanMatches, Bool.or_eq_true, decide_eq_true_eq] at hm'
      rcases hm' with h' | h'
      · exact absurd h' (hdis e' he' e he)
      · exact hinj e' he' e he h'
    exact vhtLookup_unique flag fd e.freq e hf hmatch table _ he hall

/-! ## Lemmas: re-parsing each serialized parse-image shape -/

theorem reparse_bare (table : List wifi_channel) {n : Nat} (hn : n < 2 ^ 32) :
    chantranslateCore table (channelToStrCore (bareChan n)) =
      (some (bareChan n), []) := by
  rw [chanstr_bare]
  unfold chantranslateCore
  have hsc : scanHT40 (natToDec n) = none := by
    have h := scanHT40_dec_none n [] rfl rfl
    simpa using h
  rw [hsc, scanPat2_dec_r1 hn]

theorem reparse_ht40minus (table : List wifi_channel) {n : Nat} (hn : n < 2 ^ 32) :
    chantranslateCore table (channelToStrCore (ht40Chan n nl80211_chan_ht40minus)) =
      (some (ht40Chan n nl80211_chan_ht40minus),
       ht40Msgs table n wifi_channel.flag_ht40minus) := by
  rw [chanstr_ht40minus]
  show chantranslateCore table (natToDec n ++ ("HT40".toList ++ '-' :: [])) = _
  unfold chantranslateCore
  rw [scanHT40_dec_mod hn '-' []]
  rfl

theorem reparse_ht40plus (table : List wifi_channel) {n : Nat} (hn : n < 2 ^ 32) :
    chantranslateCore table (channelToStrCore (ht40Chan n nl80211_chan_ht40plus)) =
      (some (ht40Chan n nl80211_chan_ht40plus),
       ht40Msgs table n wifi_channel.flag_ht40plus) := by
  rw [chanstr_ht40plus]
  show chantranslateCore table (natToDec n ++ ("HT40".toList ++ '+' :: [])) = _
  unfold chantranslateCore
  rw [scanHT40_dec_mod hn '+' []]
  rfl

theorem reparse_w5 (table : List wifi_channel) {n : Nat} (hn : n < 2 ^ 32) :
    chantranslateCore table (channelToStrCore (widthChan n nl80211_chan_width_5)) =
      (some (widthChan n nl80211_chan_width_5), []) := by
  rw [chanstr_w5]
  unfold chantranslateCore
  rw [scanHT40_dec_none n "W5".toList rfl rfl,
    scanPat2_dec_r2 hn "W5".toList (by decide) (by decide) (by decide) rfl]
  rfl

theorem reparse_w10 (table : List wifi_channel) {n : Nat} (hn : n < 2 ^ 32) :
    chantranslateCore table (channelToStrCore (widthChan n nl80211_chan_width_10)) =
      (some (widthChan n nl80211_chan_width_10), []) := by
  rw [chanstr_w10]
  unfold chantranslateCore
  rw [scanHT40_dec_none n "W10".toList rfl rfl,
    scanPat2_dec_r2 hn "W10".toList (by decide) (by decide) (by decide) rfl]
  rfl

theorem reparse_vht80u (table : List wifi_channel) {n c1 : Nat}
    (hn : n < 2 ^ 32) (hc1 : c1 < 2 ^ 32) :
    chantranslateCore table (channelToStrCore (vhtChanU n nl80211_chan_width_80 c1)) =
      (some (vhtChanU n nl80211_chan_width_80 c1), []) := by
  rw [chanstr_vht80u]
  unfold chantranslateCore
  rw [scanHT40_dec_none n ("VHT80".toList ++ '-' :: natToDec c1) rfl rfl,
    scanPat2_dec_r3 hn hc1 "VHT80".toList (by decide) (by decide) (by decide) rfl]
  rfl

theorem reparse_vht160u (table : List wifi_channel) {n c1 : Nat}
    (hn : n < 2 ^ 32) (hc1 : c1 < 2 ^ 32) :
    chantranslateCore table (channelToStrCore (vhtChanU n nl80211_chan_width_160 c1)) =
      (some (vhtChanU n nl80211_chan_width_160 c1), []) := by
  rw [chanstr_vht160u]
  unfold chantranslateCore
  rw [scanHT40_dec_none n ("VHT160".toList ++ '-' :: natToDec c1) rfl rfl,
    scanPat2_dec_r3 hn hc1 "VHT160".toList (by decide) (by decide) (by decide) rfl]
  rfl

theorem reparse_vht80 (table : List wifi_channel) {cf f1 : Nat} (hcf : cf < 2 ^ 32)
    (hlook : vhtLookup wifi_channel.flag_ht80 wifi_channel.freq80 cf table (cf, 0) =
      some (cf, f1)) :
    chantranslateCore table (channelToStrCore (vhtChan cf nl80211_chan_width_80 f1)) =
      (some (vhtChan cf nl80211_chan_width_80 f1), []) := by
  rw [chanstr_vht80]
  unfold chantranslateCore
  rw [scanHT40_dec_none cf "VHT80".toList rfl rfl,
    scanPat2_dec_r2 hcf "VHT80".toList (by decide) (by decide) (by decide) rfl]
  show (match vhtLookup wifi_channel.flag_ht80 wifi_channel.freq80 cf table (cf, 0) with
        | none => ((none : Option local_channel_t), [MsgFlag.error])
        | some (cf, f1) => (some (vhtChan cf nl80211_chan_width_80 f1), [])) = _
  rw [hlook]

theorem reparse_vht160 (table : List wifi_channel) {cf f1 : Nat} (hcf : cf < 2 ^ 32)
    (hlook : vhtLookup wifi_channel.flag_ht160 wifi_channel.freq160 cf table (cf, 0) =
      some (cf, f1)) :
    chantranslateCore table (channelToStrCore (vhtChan cf nl80211_chan_width_160 f1)) =
      (some (vhtChan cf nl80211_chan_width_160 f1), []) := by
  rw [chanstr_vht160]
  unfold chantranslateCore
  rw [scanHT40_dec_none cf "VHT160".toList rfl rfl,
    scanPat2_dec_r2 hcf "VHT160".toList (by decide) (by decide) (by decide) rfl]
  show (match vhtLookup wifi_channel.flag_ht160 wifi_channel.freq160 cf table (cf, 0) with
        | none => ((none : Option local_channel_t), [MsgFlag.error])
        | some (cf, f1) => (some (vhtChan cf nl80211_chan_width_160 f1), [])) = _
  rw [hlook]

/-- Bounds on the fields a successful VHT table scan can produce. -/
theorem vhtLookup_bounds {table : List wifi_channel} (hb : tableBounded table)
    (flag : wifi_channel → Bool) (fd : wifi_channel → Nat)
    (hfd : ∀ e ∈ table, fd e < 2 ^ 32)
    {v cf f1 : Nat} (hv : v < 2 ^ 32)
    (h : vhtLookup flag fd v table (v, 0) = some (cf, f1)) :
    cf < 2 ^ 32 ∧ f1 < 2 ^ 32 := by
  rcases vhtLookup_spec flag fd v table _ _ h with ⟨-, hout⟩ | ⟨e, he, -, -, hout⟩
  · rcases Prod.mk.injEq .. ▸ hout with ⟨rfl, rfl⟩
    exact ⟨hv, by positivity⟩
  · rcases Prod.mk.injEq .. ▸ hout with ⟨rfl, rfl⟩
    exact ⟨(hb e he).1, hfd e he⟩

/-- Round trip of the channel grammar at the character-list level:
any descriptor the parser produces is reproduced exactly by parsing
its serialization. -/
theorem chantranslateCore_roundtrip {table : List wifi_channel}
    (hb : tableBounded table) (hinj : freqInjective table)
    (hdis : chanFreqDisjoint table) {cs : List Char} {d : local_channel_t}
    {msgs : List MsgFlag} (h : chantranslateCore table cs = (some d, msgs)) :
    (chantranslateCore table (channelToStrCore d)).1 = some d := by
  unfold chantranslateCore at h
  cases hsc : scanHT40 cs with
  | some p =>
    obtain ⟨n, mod⟩ := p
    rw [hsc] at h
    dsimp only at h
    have hn := scanHT40_lt hsc
    by_cases hm : mod = '-'
    · rw [if_pos hm] at h
      obtain rfl : ht40Chan n nl80211_chan_ht40minus = d :=
        Option.some.inj (congrArg Prod.fst h)
      rw [reparse_ht40minus table hn]
    · rw [if_neg hm] at h
      by_cases hp : mod = '+'
      · rw [if_pos hp] at h
        obtain rfl : ht40Chan n nl80211_chan_ht40plus = d :=
          Option.some.inj (congrArg Prod.fst h)
        rw [reparse_ht40plus table hn]
      · rw [if_neg hp] at h
        obtain rfl : bareChan n = d := Option.some.inj (congrArg Prod.fst h)
        rw [reparse_bare table hn]
  | none =>
    rw [hsc] at h
    dsimp only at h
    cases hp2 : scanPat2 cs with
    | none =>
      rw [hp2] at h
      exact absurd (congrArg Prod.fst h) (by simp)
    | some pat =>
      rw [hp2] at h
      have hbounds := scanPat2_bounds hp2
      cases pat with
      | r1 n =>
        dsimp only at h hbounds
        obtain rfl : bareChan n = d := Option.some.inj (congrArg Prod.fst h)
        rw [reparse_bare table hbounds]
      | r2 n ty =>
        dsimp only at h hbounds
        by_cases h5 : caseEq ty "w5".toList = true
        · rw [if_pos h5] at h
          obtain rfl : widthChan n nl80211_chan_width_5 = d :=
            Option.some.inj (congrArg Prod.fst h)
          rw [reparse_w5 table hbounds]
        · rw [if_neg h5] at h
          by_cases h10 : caseEq ty "w10".toList = true
          · rw [if_pos h10] at h
            obtain rfl : widthChan n nl80211_chan_width_10 = d :=
              Option.some.inj (congrArg Prod.fst h)
            rw [reparse_w10 table hbounds]
          · rw [if_neg h10] at h
            by_cases h80 : caseEq ty "vht80".toList = true
            · rw [if_pos h80] at h
              cases hlk : vhtLookup wifi_channel.flag_ht80 wifi_channel.freq80
                  n table (n, 0) with
              | none =>
                rw [hlk] at h
                exact absurd (congrArg Prod.fst h) (by simp)
              | some pr =>
                obtain ⟨cf, f1⟩ := pr
                rw [hlk] at h
                dsimp only at h
                obtain rfl : vhtChan cf nl80211_chan_width_80 f1 = d :=
                  Option.some.inj (congrArg Prod.fst h)
                obtain ⟨hcf, -⟩ :=
                  vhtLookup_bounds hb _ _ (fun e he => (hb e he).2.1) hbounds hlk
                rw [reparse_vht80 table hcf
                  (vhtLookup_stable hinj hdis _ _ hlk)]
            · rw [if_neg h80] at h
              by_cases h160 : caseEq ty "vht160".toList = true
              · rw [if_pos h160] at h
                cases hlk : vhtLookup wifi_channel.flag_ht160 wifi_channel.freq160
                    n table (n, 0) with
                | none =>
                  rw [hlk] at h
                  exact absurd (congrArg Prod.fst h) (by simp)
                | some pr =>
                  obtain ⟨cf, f1⟩ := pr
                  rw [hlk] at h
                  dsimp only at h
                  obtain rfl : vhtChan cf nl80211_chan_width_160 f1 = d :=
                    Option.some.inj (congrArg Prod.fst h)
                  obtain ⟨hcf, -⟩ :=
                    vhtLookup_bounds hb _ _ (fun e he => (hb e he).2.2) hbounds hlk
                  rw [reparse_vht160 table hcf
                    (vhtLookup_stable hinj hdis _ _ hlk)]
              · rw [if_neg h160] at h
                obtain rfl : bareChan n = d := Option.some.inj (congrArg Prod.fst h)
                rw [reparse_bare table hbounds]
      | r3 n ty c1 =>
        dsimp only at h hbounds
        obtain ⟨hn, hc1⟩ := hbounds
        by_cases h5 : caseEq ty "w5".toList = true
        · rw [if_pos h5] at h
          obtain rfl : widthChan n nl80211_chan_width_5 = d :=
            Option.some.inj (congrArg Prod.fst h)
          rw [reparse_w5 table hn]
        · rw [if_neg h5] at h
          by_cases h10 : caseEq ty "w10".toList = true
          · rw [if_pos h10] at h
            obtain rfl : widthChan n nl80211_chan_width_10 = d :=
              Option.some.inj (congrArg Prod.fst h)
            rw [reparse_w10 table hn]
          · rw [if_neg h10] at h
            by_cases h80 : caseEq ty "vht80".toList = true
            · rw [if_pos h80] at h
              obtain rfl : vhtChanU n nl80211_chan_width_80 c1 = d :=
                Option.some.inj (congrArg Prod.fst h)
              rw [reparse_vht80u table hn hc1]
            · rw [if_neg h80] at h
              by_cases h160 : caseEq ty "vht160".toList = true
              · rw [if_pos h160] at h
                obtain rfl : vhtChanU n nl80211_chan_width_160 c1 = d :=
                  Option.some.inj (congrArg Prod.fst h)
                rw [reparse_vht160u table hn hc1]
              · rw [if_neg h160] at h
                obtain rfl : bareChan n = d := Option.some.inj (congrArg Prod.fst h)
                rw [reparse_bare table hn]

/-! ## Lemmas: case-insensitive suffix matching -/

/-- `tolower` does not move decimal digits. -/
theorem lowerAscii_of_isDigit {c : Char} (h : c.isDigit = true) : lowerAscii c = c := by
  unfold lowerAscii
  rw [if_neg]
  intro hcond
  simp only [Bool.and_eq_true, decide_eq_true_eq] at hcond
  obtain ⟨h1, h2⟩ := hcond
  simp only [Char.isDigit, ge_iff_le, Bool.and_eq_true, decide_eq_true_eq] at h
  obtain ⟨ha, hb⟩ := h
  have c1 : (65 : UInt32).toNat ≤ c.val.toNat := h1
  have c2 : c.val.toNat ≤ (57 : UInt32).toNat := hb
  have e1 : (65 : UInt32).toNat = 65 := rfl
  have e2 : (57 : UInt32).toNat = 57 := rfl
  omega

/-- A successful `strcasecmp` means the lower-cased strings agree. -/
theorem caseEq_map {ty pat : List Char} (h : caseEq ty pat = true) :
    ty.map lowerAscii = pat.map lowerAscii := by
  simpa [caseEq] using h

/-- A suffix cannot case-match two patterns that lower differently. -/
theorem caseEq_unique {ty a b : List Char} (ha : caseEq ty a = true)
    (hb : caseEq ty b = true) : a.map lowerAscii = b.map lowerAscii :=
  (caseEq_map ha).symm.trans (caseEq_map hb)

/-- A suffix that case-matches one of the known width patterns
automatically satisfies the scanset side conditions the parser's
second pattern imposes: nonempty, within the 15-character bound, free
of `-`, and not starting with a digit. -/
theorem caseEq_scanset {ty pat : List Char} (h : caseEq ty pat = true)
    (hne : pat ≠ []) (hlen : pat.length ≤ 15)
    (hdash : '-' ∉ pat.map lowerAscii)
    (hdig : ∀ c' ∈ (pat.map lowerAscii).head?, c'.isDigit = false) :
    ty ≠ [] ∧ ty.length ≤ 15 ∧ (∀ c ∈ ty, notDash c = true) ∧
      noLeadingDigit ty = true := by
  have hmap := caseEq_map h
  have hlen' : ty.length = pat.length := by
    have := congrArg List.length hmap
    simpa using this
  refine ⟨?_, by omega, ?_, ?_⟩
  · intro hnil
    rw [hnil] at hlen'
    simp at hlen'
    exact hne (List.eq_nil_of_length_eq_zero hlen'.symm)
  · intro c hc
    have hcne : c ≠ '-' := by
      intro rfl'
      subst rfl'
      have hmem : lowerAscii '-' ∈ ty.map lowerAscii := List.mem_map_of_mem _ hc
      rw [hmap] at hmem
      exact absurd hmem hdash
    simp [notDash, hcne]
  · cases ty with
    | nil => rfl
    | cons c rest =>
      have hhead : (pat.map lowerAscii).head? = some (lowerAscii c) := by
        rw [← hmap]; rfl
      have hld := hdig (lowerAscii c) (by rw [hhead]; rfl)
      have hcd : c.isDigit = false := by
        by_cases hd : c.isDigit = true
        · rw [lowerAscii_of_isDigit hd] at hld
          exact hld
        · exact Bool.not_eq_true _ ▸ hd
      simp [noLeadingDigit, headFails, hcd]

/-- The literal `HT40` is never a prefix of a suffix whose lowered head
differs from `h` — in particular of any case variant of the VHT/W
patterns — whatever follows the suffix. -/
theorem not_ht40_prefix_of_caseEq {ty pat : List Char} (h : caseEq ty pat = true)
    (hne : pat ≠ [])
    (hhd : ∀ p0 ∈ (pat.map lowerAscii).head?, p0 ≠ 'h') (zs : List Char) :
    "HT40".toList.isPrefixOf (ty ++ zs) = false := by
  have hmap := caseEq_map h
  cases ty with
  | nil =>
    exfalso
    simp only [List.map_nil] at hmap
    exact hne (List.map_eq_nil_iff.mp hmap.symm)
  | cons c rest =>
    have hhead : (pat.map lowerAscii).head? = some (lowerAscii c) := by
      rw [← hmap]; rfl
    have hneh : lowerAscii c ≠ 'h' := hhd _ (hhead ▸ rfl)
    have hcH : c ≠ 'H' := by
      intro rfl'
      subst rfl'
      exact hneh rfl
    show (('H' == c) && "T40".toList.isPrefixOf (rest ++ zs)) = false
    have hb : ('H' == c) = false := beq_eq_false_iff_ne.mpr (Ne.symm hcH)
    rw [hb, Bool.false_and]

/-- `scanHT40` fails when the input has no leading digit. -/
theorem scanHT40_none_of_no_digit {cs : List Char} (h : noLeadingDigit cs = true) :
    scanHT40 cs = none := by
  unfold scanHT40
  rw [sscanf_u_none h]

/-- `scanPat2` fails when the input has no leading digit. -/
theorem scanPat2_none_of_no_digit {cs : List Char} (h : noLeadingDigit cs = true) :
    scanPat2 cs = none := by
  unfold scanPat2
  rw [sscanf_u_none h]

/-- A scan over a table containing a matching entry without the flag
aborts. -/
theorem vhtLookup_none_of_bad (flag : wifi_channel → Bool) (fd : wifi_channel → Nat)
    (v : Nat) :
    ∀ (l : List wifi_channel) (st : Nat × Nat),
      (∃ e ∈ l, chanMatches e v = true ∧ flag e = false) →
      vhtLookup flag fd v l st = none := by
  intro l
  induction l with
  | nil =>
    intro st h
    obtain ⟨e, he, -⟩ := h
    exact absurd he (by simp)
  | cons e' rest ih =>
    intro st h
    obtain ⟨e, he, hm, hf⟩ := h
    unfold vhtLookup
    by_cases hm' : chanMatches e' v = true
    · rw [if_pos hm']
      by_cases hf' : flag e' = true
      · rw [if_pos hf']
        have hee : e ≠ e' := by
          intro rfl'
          subst rfl'
          rw [hf'] at hf
          exact Bool.true_eq_false ▸ hf
        rcases List.mem_cons.mp he with rfl | he'
        · exact absurd rfl hee
        · exact ih _ ⟨e, he', hm, hf⟩
      · rw [if_neg hf']
    · rw [if_neg hm']
      rcases List.mem_cons.mp he with rfl | he'
      · exact absurd hm hm'
      · exact ih _ ⟨e, he', hm, hf⟩

/-! ## Lemmas: the parser on case-insensitive suffix families -/

/-- The parser on `NN` followed by any case variant of `VHT80`:
it runs the 80 MHz table scan. -/
theorem chantranslate_vht80_auto (table : List wifi_channel) {n : Nat}
    (hn : n < 2 ^ 32) {ty : List Char} (hty : caseEq ty "vht80".toList = true) :
    chantranslateCore table (natToDec n ++ ty) =
      (match vhtLookup wifi_channel.flag_ht80 wifi_channel.freq80 n table (n, 0) with
       | none => (none, [MsgFlag.error])
       | some (cf, f1) => (some (vhtChan cf nl80211_chan_width_80 f1), [])) := by
  obtain ⟨h1, h2, h3, h4⟩ :=
    caseEq_scanset hty (by decide) (by decide) (by decide) (by decide)
  have hpre := not_ht40_prefix_of_caseEq hty (by decide) (by decide) []
  rw [← List.append_nil ty] at h1 h2 h3 h4 hty ⊢
  unfold chantranslateCore
  rw [scanHT40_dec_none n _ (by simpa using h4) hpre,
    scanPat2_dec_r2 hn _ h1 (by simpa using h2) h3 h4]
  have hw5 : caseEq (ty ++ []) "w5".toList = false := by
    cases hcv : caseEq (ty ++ []) "w5".toList with
    | false => rfl
    | true => exact absurd (caseEq_unique hcv hty) (by decide)
  have hw10 : caseEq (ty ++ []) "w10".toList = false := by
    cases hcv : caseEq (ty ++ []) "w10".toList with
    | false => rfl
    | true => exact absurd (caseEq_unique hcv hty) (by decide)
  dsimp only
  rw [if_neg (by rw [hw5]; exact Bool.false_ne_true),
    if_neg (by rw [hw10]; exact Bool.false_ne_true), if_pos hty]

/-- The parser on `NN` followed by any case variant of `VHT160`. -/
theorem chantranslate_vht160_auto (table : List wifi_channel) {n : Nat}
    (hn : n < 2 ^ 32) {ty : List Char} (hty : caseEq ty "vht160".toList = true) :
    chantranslateCore table (natToDec n ++ ty) =
      (match vhtLookup wifi_channel.flag_ht160 wifi_channel.freq160 n table (n, 0) with
       | none => (none, [MsgFlag.error])
       | some (cf, f1) => (some (vhtChan cf nl80211_chan_width_160 f1), [])) := by
  obtain ⟨h1, h2, h3, h4⟩ :=
    caseEq_scanset hty (by decide) (by decide) (by decide) (by decide)
  have hpre := not_ht40_prefix_of_caseEq hty (by decide) (by decide) []
  rw [← List.append_nil ty] at h1 h2 h3 h4 hty ⊢
  unfold chantranslateCore
  rw [scanHT40_dec_none n _ (by simpa using h4) hpre,
    scanPat2_dec_r2 hn _ h1 (by simpa using h2) h3 h4]
  have hw5 : caseEq (ty ++ []) "w5".toList = false := by
    cases hcv : caseEq (ty ++ []) "w5".toList with
    | false => rfl
    | true => exact absurd (caseEq_unique hcv hty) (by decide)
  have hw10 : caseEq (ty ++ []) "w10".toList = false := by
    cases hcv : caseEq (ty ++ []) "w10".toList with
    | false => rfl
    | true => exact absurd (caseEq_unique hcv hty) (by decide)
  have hv80 : caseEq (ty ++ []) "vht80".toList = false := by
    cases hcv : caseEq (ty ++ []) "vht80".toList with
    | false => rfl
    | true => exact absurd (caseEq_unique hcv hty) (by decide)
  dsimp only
  rw [if_neg (by rw [hw5]; exact Bool.false_ne_true),
    if_neg (by rw [hw10]; exact Bool.false_ne_true),
    if_neg (by rw [hv80]; exact Bool.false_ne_true), if_pos hty]

/-- The parser on `NNVHT80-CC` (any case): the hardcoded-center branch,
with no table involvement. -/
theorem chantranslate_vht80_hardcoded (table : List wifi_channel) {n c1 : Nat}
    (hn : n < 2 ^ 32) (hc1 : c1 < 2 ^ 32) {ty : List Char}
    (hty : caseEq ty "vht80".toList = true) :
    chantranslateCore table (natToDec n ++ (ty ++ '-' :: natToDec c1)) =
      (some (vhtChanU n nl80211_chan_width_80 c1), []) := by
  obtain ⟨h1, h2, h3, h4⟩ :=
    caseEq_scanset hty (by decide) (by decide) (by decide) (by decide)
  have hpre := not_ht40_prefix_of_caseEq hty (by decide) (by decide) ('-' :: natToDec c1)
  unfold chantranslateCore
  rw [scanHT40_dec_none n _ (by rw [noLeadingDigit, headFails_append _ h1]; exact h4) hpre,
    scanPat2_dec_r3 hn hc1 _ h1 h2 h3 h4]
  have hw5 : caseEq ty "w5".toList = false := by
    cases hcv : caseEq ty "w5".toList with
    | false => rfl
    | true => exact absurd (caseEq_unique hcv hty) (by decide)
  have hw10 : caseEq ty "w10".toList = false := by
    cases hcv : caseEq ty "w10".toList with
    | false => rfl
    | true => exact absurd (caseEq_unique hcv hty) (by decide)
  dsimp only
  rw [if_neg (by rw [hw5]; exact Bool.false_ne_true),
    if_neg (by rw [hw10]; exact Bool.false_ne_true), if_pos hty]

/-- The parser on `NNVHT160-CC` (any case). -/
theorem chantranslate_vht160_hardcoded (table : List wifi_channel) {n c1 : Nat}
    (hn : n < 2 ^ 32) (hc1 : c1 < 2 ^ 32) {ty : List Char}
    (hty : caseEq ty "vht160".toList = true) :
    chantranslateCore table (natToDec n ++ (ty ++ '-' :: natToDec c1)) =
      (some (vhtChanU n nl80211_chan_width_160 c1), []) := by
  obtain ⟨h1, h2, h3, h4⟩ :=
    caseEq_scanset hty (by decide) (by decide) (by decide) (by decide)
  have hpre := not_ht40_prefix_of_caseEq hty (by decide) (by decide) ('-' :: natToDec c1)
  unfold chantranslateCore
  rw [scanHT40_dec_none n _ (by rw [noLeadingDigit, headFails_append _ h1]; exact h4) hpre,
    scanPat2_dec_r3 hn hc1 _ h1 h2 h3 h4]
  have hw5 : caseEq ty "w5".toList = false := by
    cases hcv : caseEq ty "w5".toList with
    | false => rfl
    | true => exact absurd (caseEq_unique hcv hty) (by decide)
  have hw10 : caseEq ty "w10".toList = false := by
    cases hcv : caseEq ty "w10".toList with
    | false => rfl
    | true => exact absurd (caseEq_unique hcv hty) (by decide)
  have hv80 : caseEq ty "vht80".toList = false := by
    cases hcv : caseEq ty "vht80".toList with
    | false => rfl
    | true => exact absurd (caseEq_unique hcv hty) (by decide)
  dsimp only
  rw [if_neg (by rw [hw5]; exact Bool.false_ne_true),
    if_neg (by rw [hw10]; exact Bool.false_ne_true),
    if_neg (by rw [hv80]; exact Bool.false_ne_true), if_pos hty]

/-- The parser on `NN` followed by the literal `HT40` and a modifier
character. -/
theorem chantranslate_ht40 (table : List wifi_channel) {n : Nat}
    (hn : n < 2 ^ 32) (mod : Char) (tail : List Char) :
    chantranslateCore table (natToDec n ++ ("HT40".toList ++ mod :: tail)) =
      (if mod = '-' then
        (some (ht40Chan n nl80211_chan_ht40minus),
         ht40Msgs table n wifi_channel.flag_ht40minus)
      else if mod = '+' then
        (some (ht40Chan n nl80211_chan_ht40plus),
         ht40Msgs table n wifi_channel.flag_ht40plus)
      else (some (bareChan n), [MsgFlag.info])) := by
  unfold chantranslateCore
  rw [scanHT40_dec_mod hn mod tail]

/-- The parser on `NN` followed by an unrecognized scanset suffix. -/
theorem chantranslate_unknown_suffix (table : List wifi_channel) {n : Nat}
    (hn : n < 2 ^ 32) {ty : List Char}
    (h1 : ty ≠ []) (h2 : ty.length ≤ 15) (h3 : ∀ c ∈ ty, notDash c = true)
    (h4 : noLeadingDigit ty = true)
    (hpre : "HT40".toList.isPrefixOf ty = false)
    (hw5 : caseEq ty "w5".toList = false) (hw10 : caseEq ty "w10".toList = false)
    (hv80 : caseEq ty "vht80".toList = false)
    (hv160 : caseEq ty "vht160".toList = false) :
    chantranslateCore table (natToDec n ++ ty) =
      (some (bareChan n), [MsgFlag.info]) := by
  unfold chantranslateCore
  rw [scanHT40_dec_none n ty h4 hpre, scanPat2_dec_r2 hn ty h1 h2 h3 h4]
  dsimp only
  rw [if_neg (by rw [hw5]; exact Bool.false_ne_true),
    if_neg (by rw [hw10]; exact Bool.false_ne_true),
    if_neg (by rw [hv80]; exact Bool.false_ne_true),
    if_neg (by rw [hv160]; exact Bool.false_ne_true)]

/-- The parser on `NN` directly followed by `-`: the scanset matches
nothing, so the scan stops at return value 1 and the channel parses as
bare `NN` with no diagnostic. -/
theorem chantranslate_dash_suffix (table : List wifi_channel) {n : Nat}
    (hn : n < 2 ^ 32) (tail : List Char) :
    chantranslateCore table (natToDec n ++ '-' :: tail) =
      (some (bareChan n), []) := by
  unfold chantranslateCore
  rw [scanHT40_dec_none n ('-' :: tail) rfl rfl]
  have hp2 : scanPat2 (natToDec n ++ '-' :: tail) = some (.r1 n) := by
    unfold scanPat2
    rw [sscanf_u_dec_lt ('-' :: tail) rfl hn]
    rfl
  rw [hp2]

/-- The parser on an input with no leading digit: both scan patterns
fail and the parse is rejected with an error diagnostic. -/
theorem chantranslate_no_digit (table : List wifi_channel) {cs : List Char}
    (h : noLeadingDigit cs = true) :
    chantranslateCore table cs = (none, [MsgFlag.error]) := by
  unfold chantranslateCore
  rw [scanHT40_none_of_no_digit h, scanPat2_none_of_no_digit h]

/-! ## Lemmas: interface-number search -/

theorem findNextAux_found (p : Nat → Bool) :
    ∀ (fuel start i : Nat), start ≤ i → i < start + fuel → p i = true →
      (∀ j, start ≤ j → j < i → p j = false) →
      findNextAux p start fuel = some i := by
  intro fuel
  induction fuel with
  | zero => intro start i h1 h2 _ _; omega
  | succ f ih =>
    intro start i h1 h2 hp hmin
    by_cases hs : start = i
    · subst hs
      unfold findNextAux
      rw [if_pos hp]
    · have hpstart : p start = false := hmin start le_rfl (by omega)
      unfold findNextAux
      rw [if_neg (by rw [hpstart]; exact Bool.false_ne_true)]
      exact ih (start + 1) i (by omega) (by omega) hp
        (fun j hj1 hj2 => hmin j (by omega) hj2)

theorem findNextAux_none (p : Nat → Bool) :
    ∀ (fuel start : Nat), (∀ i, start ≤ i → i < start + fuel → p i = false) →
      findNextAux p start fuel = none := by
  intro fuel
  induction fuel with
  | zero => intro start _; rfl
  | succ f ih =>
    intro start hall
    unfold findNextAux
    rw [if_neg (by rw [hall start le_rfl (by omega)]; exact Bool.false_ne_true)]
    exact ih (start + 1) (fun i h1 h2 => hall i (by omega) (by omega))

theorem find_next_ifnum_found (ifexists : String → Bool) (basename : String)
    {i : Nat} (hi : i < 100)
    (hfree : ifexists (basename ++ (⟨natToDec i⟩ : String)) = false)
    (hbusy : ∀ j < i, ifexists (basename ++ (⟨natToDec j⟩ : String)) = true) :
    find_next_ifnum ifexists basename = some i := by
  unfold find_next_ifnum
  apply findNextAux_found _ 100 0 i (Nat.zero_le i) (by omega)
  · rw [hfree]; rfl
  · intro j _ hj2
    rw [hbusy j hj2]
    rfl

theorem find_next_ifnum_exhausted (ifexists : String → Bool) (basename : String)
    (hall : ∀ i < 100, ifexists (basename ++ (⟨natToDec i⟩ : String)) = true) :
    find_next_ifnum ifexists basename = none := by
  unfold find_next_ifnum
  apply findNextAux_none
  intro i _ h2
  rw [hall i (by omega)]
  rfl

/-! ## The claims -/

/-- C10: For every call to the channel controller
(`chancontrol_callback`) with a `NULL` channel descriptor, the call
returns success (0) immediately, invokes no backend channel-set
operation, and leaves every InterfaceState field unchanged, for any
`seqno` and any environment. -/
theorem C10_null_descriptor_noop (st : local_wifi_t) (seqno : Nat) (r : Int) :
    chancontrol_callback st seqno none r = (0, st, []) := rfl

/-- C1 (code-bug evidence): starting from the fresh state, ten
consecutive hop-context (`seqno = 0`) channel-set failures — on the
netlink path and on the legacy path alike — all return 0 and leave
`seq_channel_failure` at 0.  The controller compares the counter
against 10 but never increments it, so the escalation the claim (and
the controller's own comment) describes can never fire. -/
theorem C1_failure_counter_never_advances :
    chancontrolFailRun (bareChan 6) 10 main_local_wifi =
        (List.replicate 10 0, main_local_wifi) ∧
    chancontrolFailRun (bareChan 6) 10
        { main_local_wifi with use_mac80211 := 0 } =
      (List.replicate 10 0, { main_local_wifi with use_mac80211 := 0 }) :=
  ⟨rfl, rfl⟩

/-- C2 counterexample: a successful channel set on the netlink path
(`use_mac80211 = 1`) with `seqno = 7` resets the counter but emits no
configure-response — the netlink success branch returns without
calling `cf_send_configresp_channel`. -/
theorem C2_netlink_success_sends_no_configresp :
    chancontrol_callback main_local_wifi 7 (some (bareChan 6)) 0 =
      (0, main_local_wifi, [ChanAction.mac80211_set_channel 6 0]) := rfl

/-- C2 (amended): for every successful channel set,
`seq_channel_failure` is reset to 0 on both dispatch paths; a
configure-response carrying the serialized channel string is emitted
when `seqno ≠ 0` on the legacy path only. -/
theorem C2_success_resets_counter (st : local_wifi_t) (seqno : Nat)
    (ch : local_channel_t) (r : Int) (hr : 0 ≤ r) :
    (chancontrol_callback st seqno (some ch) r).2.1.seq_channel_failure = 0 ∧
    (st.use_mac80211 = 0 → seqno ≠ 0 →
      (chancontrol_callback st seqno (some ch) r).2.2 =
        [ChanAction.iwconfig_set_channel ch.control_freq,
         ChanAction.send_configresp_channel seqno 1 (local_channel_to_str ch)]) := by
  have hneg : ¬ (r < 0) := by omega
  unfold chancontrol_callback
  dsimp only
  by_cases hm : st.use_mac80211 = 0
  · rw [if_pos hm, if_neg hneg]
    by_cases hs : seqno ≠ 0
    · rw [if_pos hs]
      exact ⟨rfl, fun _ _ => rfl⟩
    · rw [if_neg hs]
      exact ⟨rfl, fun _ h => absurd h hs⟩
  · rw [if_neg hm, if_neg hneg]
    exact ⟨rfl, fun h => absurd h hm⟩

/-- Witness for C2 (amended) on the legacy path with `seqno = 7`. -/
theorem C2_success_resets_counter_witness :
    (chancontrol_callback { main_local_wifi with use_mac80211 := 0 } 7
        (some (bareChan 6)) 0).2.1.seq_channel_failure = 0 ∧
    ({ main_local_wifi with use_mac80211 := 0 }.use_mac80211 = 0 → (7 : Nat) ≠ 0 →
      (chancontrol_callback { main_local_wifi with use_mac80211 := 0 } 7
          (some (bareChan 6)) 0).2.2 =
        [ChanAction.iwconfig_set_channel (bareChan 6).control_freq,
         ChanAction.send_configresp_channel 7 1 (local_channel_to_str (bareChan 6))]) :=
  C2_success_resets_counter { main_local_wifi with use_mac80211 := 0 } 7
    (bareChan 6) 0 (by omega)

/-- C4: the channel controller's backend dispatch: netlink with a
nonzero width calls the width-aware `mac80211_set_frequency` with the
descriptor's control frequency, width and both centers; netlink with
zero width calls `mac80211_set_channel` with the control frequency and
the HT `chan_type`; the legacy path calls `iwconfig_set_channel` with
the control frequency only, whatever `chan_type` and `chan_width`
hold. -/
theorem C4_backend_dispatch (st : local_wifi_t) (seqno : Nat)
    (ch : local_channel_t) (r : Int) :
    (st.use_mac80211 ≠ 0 → ch.chan_width ≠ 0 →
      (chancontrol_callback st seqno (some ch) r).2.2.head? =
        some (ChanAction.mac80211_set_frequency ch.control_freq ch.chan_width
          ch.center_freq1 ch.center_freq2)) ∧
    (st.use_mac80211 ≠ 0 → ch.chan_width = 0 →
      (chancontrol_callback st seqno (some ch) r).2.2.head? =
        some (ChanAction.mac80211_set_channel ch.control_freq ch.chan_type)) ∧
    (st.use_mac80211 = 0 →
      (chancontrol_callback st seqno (some ch) r).2.2.head? =
        some (ChanAction.iwconfig_set_channel ch.control_freq)) := by
  refine ⟨?_, ?_, ?_⟩
  · intro h1 h2
    unfold chancontrol_callback
    dsimp only
    rw [if_neg h1, if_pos h2]
    split_ifs <;> rfl
  · intro h1 h2
    unfold chancontrol_callback
    dsimp only
    rw [if_neg h1, if_neg (show ¬ (ch.chan_width ≠ 0) by simp [h2])]
    split_ifs <;> rfl
  · intro h1
    unfold chancontrol_callback
    dsimp only
    rw [if_pos h1]
    split_ifs <;> rfl

/-- Witness for C4 on all three dispatch paths. -/
theorem C4_backend_dispatch_witness :
    ((chancontrol_callback main_local_wifi 0
        (some (vhtChan 5180 nl80211_chan_width_80 5210)) 0).2.2.head? =
      some (ChanAction.mac80211_set_frequency 5180 nl80211_chan_width_80 5210 0)) ∧
    ((chancontrol_callback main_local_wifi 0
        (some (ht40Chan 2437 nl80211_chan_ht40minus)) 0).2.2.head? =
      some (ChanAction.mac80211_set_channel 2437 nl80211_chan_ht40minus)) ∧
    ((chancontrol_callback { main_local_wifi with use_mac80211 := 0 } 0
        (some (vhtChan 5180 nl80211_chan_width_80 5210)) 0).2.2.head? =
      some (ChanAction.iwconfig_set_channel 5180)) :=
  ⟨(C4_backend_dispatch main_local_wifi 0
      (vhtChan 5180 nl80211_chan_width_80 5210) 0).1 (by decide) (by decide),
   (C4_backend_dispatch main_local_wifi 0
      (ht40Chan 2437 nl80211_chan_ht40minus) 0).2.1 (by decide) rfl,
   (C4_backend_dispatch { main_local_wifi with use_mac80211 := 0 } 0
      (vhtChan 5180 nl80211_chan_width_80 5210) 0).2.2 rfl⟩

/-- C9 (code-bug evidence): when `cf_send_data` reports an error the
dispatch callback emits the breakloop/error/spindown sequence but its
`while (1)` has no `break` on that path, so it attempts `cf_send_data`
again for the same packet (first conjunct: the loop only ends because
the second attempt succeeds) and does not terminate at all if the
error persists (second conjunct). -/
theorem C9_error_path_retries_same_packet :
    pcap_dispatch_cb [.err, .ok] =
      some [.cf_send_data, .pcap_breakloop, .cf_send_error,
            .cf_handler_spindown, .cf_send_data] ∧
    pcap_dispatch_cb [.err] = none :=
  ⟨rfl, rfl⟩

/-- C7: monitor-vif naming in `open_callback`: with a short parent
name the candidate is `<parent>mon`, which is rejected when it exists
in a non-monitor mode; with a parent name too long for the `mon`
suffix the candidate is `kismonN` for the smallest `N ≤ 99` naming no
existing interface, and exhaustion of all 100 candidates fails the
open. -/
theorem C7_monitor_vif_naming (ifexists : String → Bool)
    (getMode : String → Option Int) (parent : String) :
    (parent.length + 3 < IFNAMSIZ →
      ∀ m, getMode (parent ++ "mon") = some m → m ≠ linux_wlext_monitor →
        derive_mon_vif ifexists getMode parent = .fail_not_monitor) ∧
    (parent.length + 3 < IFNAMSIZ →
      (getMode (parent ++ "mon") = none ∨
       getMode (parent ++ "mon") = some linux_wlext_monitor) →
        derive_mon_vif ifexists getMode parent = .ok (parent ++ "mon")) ∧
    (parent.length + 3 ≥ IFNAMSIZ →
      ∀ i, i < 100 → ifexists ("kismon" ++ (⟨natToDec i⟩ : String)) = false →
      (∀ j < i, ifexists ("kismon" ++ (⟨natToDec j⟩ : String)) = true) →
        derive_mon_vif ifexists getMode parent =
          .ok ("kismon" ++ (⟨natToDec i⟩ : String))) ∧
    (parent.length + 3 ≥ IFNAMSIZ →
      (∀ i, i < 100 → ifexists ("kismon" ++ (⟨natToDec i⟩ : String)) = true) →
        derive_mon_vif ifexists getMode parent = .fail_exhausted) := by
  refine ⟨?_, ?_, ?_, ?_⟩
  · intro hlen m hmode hne
    unfold derive_mon_vif
    rw [if_neg (by omega)]
    dsimp only
    rw [hmode]
    dsimp only
    rw [if_pos hne]
  · intro hlen hmode
    unfold derive_mon_vif
    rw [if_neg (by omega)]
    dsimp only
    rcases hmode with hmode | hmode
    · rw [hmode]
    · rw [hmode]
      dsimp only
      rw [if_neg (by simp)]
  · intro hlen i hi hfree hbusy
    unfold derive_mon_vif
    rw [if_pos hlen, find_next_ifnum_found ifexists "kismon" hi hfree hbusy]
  · intro hlen hall
    unfold derive_mon_vif
    rw [if_pos hlen, find_next_ifnum_exhausted ifexists "kismon" hall]

/-- Witness for C7 on all four naming outcomes. -/
theorem C7_monitor_vif_naming_witness :
    (derive_mon_vif (fun _ => false) (fun _ => some 2) "wlan0" =
      .fail_not_monitor) ∧
    (derive_mon_vif (fun _ => false) (fun _ => none) "wlan0" = .ok "wlan0mon") ∧
    (derive_mon_vif (fun s => s == "kismon0") (fun _ => none) "wlan_very_long_if" =
      .ok ("kismon" ++ (⟨natToDec 1⟩ : String))) ∧
    (derive_mon_vif (fun _ => true) (fun _ => none) "wlan_very_long_if" =
      .fail_exhausted) :=
  ⟨(C7_monitor_vif_naming (fun _ => false) (fun _ => some 2) "wlan0").1
      (by decide) 2 rfl (by decide),
   (C7_monitor_vif_naming (fun _ => false) (fun _ => none) "wlan0").2.1
      (by decide) (Or.inl rfl),
   (C7_monitor_vif_naming (fun s => s == "kismon0") (fun _ => none)
      "wlan_very_long_if").2.2.1 (by decide) 1 (by decide) (by decide) (by decide),
   (C7_monitor_vif_naming (fun _ => true) (fun _ => none)
      "wlan_very_long_if").2.2.2 (by decide) (fun i _ => rfl)⟩

/-- Every diagnostic of the HT40 table check is informational. -/
theorem ht40Msgs_all_info (table : List wifi_channel) (n : Nat)
    (flag : wifi_channel → Bool) :
    ∀ m ∈ ht40Msgs table n flag, m = MsgFlag.info := by
  intro m hm
  unfold ht40Msgs at hm
  rcases List.mem_map.mp hm with ⟨e, -, he⟩
  exact he.symm

/-- The HT40 table check emits a diagnostic when some matching entry
lacks the flag. -/
theorem ht40Msgs_ne_nil (table : List wifi_channel) (n : Nat)
    (flag : wifi_channel → Bool) (e : wifi_channel) (he : e ∈ table)
    (hm : chanMatches e n = true) (hf : flag e = false) :
    ht40Msgs table n flag ≠ [] := by
  unfold ht40Msgs
  have hmem : e ∈ table.filter (fun e => chanMatches e n && !flag e) :=
    List.mem_filter.mpr ⟨he, by rw [hm, hf]; rfl⟩
  exact List.ne_nil_of_mem (List.mem_map_of_mem _ hmem)

/-- C8: the UUID emitted in the open-response is
`AAAAAAAA-0000-0000-0000-MMMMMMMMMMMM`: the first 8 hex digits are the
32-bit Adler checksum of the ASCII literal `kismet_cap_linux_wifi`
(concretely `5FF808BE`) and the last 12 are the interface's six EUI-48
bytes in upper-case hex; being a function of the hardware address
alone, the same hardware yields the same UUID on every run. -/
theorem C8_uuid_shape (b0 b1 b2 b3 b4 b5 : Nat)
    (h0 : b0 < 256) (h1 : b1 < 256) (h2 : b2 < 256)
    (h3 : b3 < 256) (h4 : b4 < 256) (h5 : b5 < 256) :
    open_uuid b0 b1 b2 b3 b4 b5 =
      ⟨toHex8 (adler32_csum kismet_cap_literal) ++ "-0000-0000-0000-".toList ++
       toHex2 b0 ++ toHex2 b1 ++ toHex2 b2 ++ toHex2 b3 ++ toHex2 b4 ++ toHex2 b5⟩ ∧
    toHex8 (adler32_csum kismet_cap_literal) = "5FF808BE".toList := by
  refine ⟨?_, by decide⟩
  unfold open_uuid
  rw [Nat.mod_eq_of_lt h0, Nat.mod_eq_of_lt h1, Nat.mod_eq_of_lt h2,
    Nat.mod_eq_of_lt h3, Nat.mod_eq_of_lt h4, Nat.mod_eq_of_lt h5,
    Nat.mod_eq_of_lt (show adler32_csum kismet_cap_literal < 2 ^ 32 by decide)]

/-- Witness for C8 at a concrete hardware address. -/
theorem C8_uuid_shape_witness :
    open_uuid 0 17 34 171 205 239 =
      ⟨toHex8 (adler32_csum kismet_cap_literal) ++ "-0000-0000-0000-".toList ++
       toHex2 0 ++ toHex2 17 ++ toHex2 34 ++ toHex2 171 ++ toHex2 205 ++ toHex2 239⟩ ∧
    toHex8 (adler32_csum kismet_cap_literal) = "5FF808BE".toList :=
  C8_uuid_shape 0 17 34 171 205 239 (by decide) (by decide) (by decide)
    (by decide) (by decide) (by decide)

/-- C3: for every ChannelDescriptor the channel parser
(`chantranslate_callback`) produces, parsing the string the serializer
(`local_channel_to_str`) renders from it yields a descriptor equal to
it in all six fields.  The HT/VHT table is any table whose
frequencies are 32-bit, identify their rows, and do not collide with
channel numbers — properties the concrete table holds (see the
witness). -/
theorem C3_parse_serialize_roundtrip (table : List wifi_channel)
    (hb : tableBounded table) (hinj : freqInjective table)
    (hdis : chanFreqDisjoint table) (s : String) (d : local_channel_t)
    (msgs : List MsgFlag) (h : chantranslate_callback table s = (some d, msgs)) :
    (chantranslate_callback table (local_channel_to_str d)).1 = some d :=
  chantranslateCore_roundtrip hb hinj hdis h

/-- Witness for C3 at the concrete table and the parse of `36VHT80`. -/
theorem C3_parse_serialize_roundtrip_witness :
    (chantranslate_callback wifi_ht_channels
        (local_channel_to_str (vhtChan 5180 nl80211_chan_width_80 5210))).1 =
      some (vhtChan 5180 nl80211_chan_width_80 5210) :=
  C3_parse_serialize_roundtrip wifi_ht_channels (by decide) (by decide) (by decide)
    "36VHT80" (vhtChan 5180 nl80211_chan_width_80 5210) [] (by decide)

/-- C5: the VHT80/VHT160 grammar (case-insensitive suffixes): a bare
`NNVHT80`/`NNVHT160` resolves `control_freq` and `center_freq1`
through the HT table (with `unusual_center1` false) when the matching
entry carries the flag, and is rejected (`NULL`) when a matching entry
lacks it; `NNVHT80-CC`/`NNVHT160-CC` takes `center_freq1 = CC` and
`unusual_center1 = true`, keeps `control_freq = NN`, and consults no
table (the result is the same for every `table`). -/
theorem C5_vht_wide_channels (table : List wifi_channel) :
    (∀ (n : Nat) (ty : List Char) (e : wifi_channel), n < 2 ^ 32 →
      caseEq ty "vht80".toList = true →
      e ∈ table → chanMatches e n = true → e.flag_ht80 = true →
      (∀ e' ∈ table, chanMatches e' n = true → e' = e) →
      chantranslate_callback table ⟨natToDec n ++ ty⟩ =
        (some (vhtChan e.freq nl80211_chan_width_80 e.freq80), [])) ∧
    (∀ (n : Nat) (ty : List Char), n < 2 ^ 32 →
      caseEq ty "vht80".toList = true →
      (∃ e ∈ table, chanMatches e n = true ∧ e.flag_ht80 = false) →
      (chantranslate_callback table ⟨natToDec n ++ ty⟩).1 = none) ∧
    (∀ (n c1 : Nat) (ty : List Char), n < 2 ^ 32 → c1 < 2 ^ 32 →
      caseEq ty "vht80".toList = true →
      chantranslate_callback table ⟨natToDec n ++ (ty ++ '-' :: natToDec c1)⟩ =
        (some (vhtChanU n nl80211_chan_width_80 c1), [])) ∧
    (∀ (n : Nat) (ty : List Char) (e : wifi_channel), n < 2 ^ 32 →
      caseEq ty "vht160".toList = true →
      e ∈ table → chanMatches e n = true → e.flag_ht160 = true →
      (∀ e' ∈ table, chanMatches e' n = true → e' = e) →
      chantranslate_callback table ⟨natToDec n ++ ty⟩ =
        (some (vhtChan e.freq nl80211_chan_width_160 e.freq160), [])) ∧
    (∀ (n : Nat) (ty : List Char), n < 2 ^ 32 →
      caseEq ty "vht160".toList = true →
      (∃ e ∈ table, chanMatches e n = true ∧ e.flag_ht160 = false) →
      (chantranslate_callback table ⟨natToDec n ++ ty⟩).1 = none) ∧
    (∀ (n c1 : Nat) (ty : List Char), n < 2 ^ 32 → c1 < 2 ^ 32 →
      caseEq ty "vht160".toList = true →
      chantranslate_callback table ⟨natToDec n ++ (ty ++ '-' :: natToDec c1)⟩ =
        (some (vhtChanU n nl80211_chan_width_160 c1), [])) := by
  refine ⟨?_, ?_, ?_, ?_, ?_, ?_⟩
  · intro n ty e hn hty he hm hf hall
    show chantranslateCore table (natToDec n ++ ty) = _
    rw [chantranslate_vht80_auto table hn hty,
      vhtLookup_unique wifi_channel.flag_ht80 wifi_channel.freq80 n e hf hm
        table (n, 0) he hall]
  · intro n ty hn hty hex
    show (chantranslateCore table (natToDec n ++ ty)).1 = none
    rw [chantranslate_vht80_auto table hn hty,
      vhtLookup_none_of_bad wifi_channel.flag_ht80 wifi_channel.freq80 n
        table (n, 0) hex]
  · intro n c1 ty hn hc1 hty
    show chantranslateCore table (natToDec n ++ (ty ++ '-' :: natToDec c1)) = _
    exact chantranslate_vht80_hardcoded table hn hc1 hty
  · intro n ty e hn hty he hm hf hall
    show chantranslateCore table (natToDec n ++ ty) = _
    rw [chantranslate_vht160_auto table hn hty,
      vhtLookup_unique wifi_channel.flag_ht160 wifi_channel.freq160 n e hf hm
        table (n, 0) he hall]
  · intro n ty hn hty hex
    show (chantranslateCore table (natToDec n ++ ty)).1 = none
    rw [chantranslate_vht160_auto table hn hty,
      vhtLookup_none_of_bad wifi_channel.flag_ht160 wifi_channel.freq160 n
        table (n, 0) hex]
  · intro n c1 ty hn hc1 hty
    show chantranslateCore table (natToDec n ++ (ty ++ '-' :: natToDec c1)) = _
    exact chantranslate_vht160_hardcoded table hn hc1 hty

/-- Witness for C5: channel 36 resolves through the table for VHT80
and VHT160, channel 165 (no wide flags) is rejected for both, and the
hardcoded-center forms `36VHT80-5210` / `100VHT160-5250` bypass the
table. -/
theorem C5_vht_wide_channels_witness :
    (chantranslate_callback wifi_ht_channels ⟨natToDec 36 ++ "VHT80".toList⟩ =
      (some (vhtChan 5180 nl80211_chan_width_80 5210), [])) ∧
    ((chantranslate_callback wifi_ht_channels
        ⟨natToDec 165 ++ "VHT80".toList⟩).1 = none) ∧
    (chantranslate_callback wifi_ht_channels
        ⟨natToDec 36 ++ ("VHT80".toList ++ '-' :: natToDec 5210)⟩ =
      (some (vhtChanU 36 nl80211_chan_width_80 5210), [])) ∧
    (chantranslate_callback wifi_ht_channels ⟨natToDec 36 ++ "vht160".toList⟩ =
      (some (vhtChan 5180 nl80211_chan_width_160 5250), [])) ∧
    ((chantranslate_callback wifi_ht_channels
        ⟨natToDec 165 ++ "VHT160".toList⟩).1 = none) ∧
    (chantranslate_callback wifi_ht_channels
        ⟨natToDec 100 ++ ("VHT160".toList ++ '-' :: natToDec 5250)⟩ =
      (some (vhtChanU 100 nl80211_chan_width_160 5250), [])) := by
  have hc := C5_vht_wide_channels wifi_ht_channels
  exact ⟨hc.1 36 "VHT80".toList
      { chan := 36, freq := 5180, flag_ht40minus := false, flag_ht40plus := true,
        flag_ht80 := true, flag_ht160 := true, freq80 := 5210, freq160 := 5250 }
      (by decide) (by decide) (by decide) (by decide) (by decide) (by decide),
    hc.2.1 165 "VHT80".toList (by decide) (by decide)
      ⟨{ chan := 165, freq := 5825, flag_ht40minus := false, flag_ht40plus := false,
         flag_ht80 := false, flag_ht160 := false, freq80 := 0, freq160 := 0 },
       by decide, by decide, by decide⟩,
    hc.2.2.1 36 5210 "VHT80".toList (by decide) (by decide) (by decide),
    hc.2.2.2.1 36 "vht160".toList
      { chan := 36, freq := 5180, flag_ht40minus := false, flag_ht40plus := true,
        flag_ht80 := true, flag_ht160 := true, freq80 := 5210, freq160 := 5250 }
      (by decide) (by decide) (by decide) (by decide) (by decide) (by decide),
    hc.2.2.2.2.1 165 "VHT160".toList (by decide) (by decide)
      ⟨{ chan := 165, freq := 5825, flag_ht40minus := false, flag_ht40plus := false,
         flag_ht80 := false, flag_ht160 := false, freq80 := 0, freq160 := 0 },
       by decide, by decide, by decide⟩,
    hc.2.2.2.2.2 100 5250 "VHT160".toList (by decide) (by decide) (by decide)⟩

/-- C6 counterexample: the input `6-` has a leading integer followed
by the unrecognized suffix `-`, yet the parser returns the bare
descriptor with NO diagnostic at all — the scanset of
`"%u%15[^-]-%u"` matches nothing, so the scan stops at return value 1
and the informational-diagnostic branch is never reached. -/
theorem C6_dash_suffix_no_diagnostic :
    chantranslate_callback wifi_ht_channels "6-" = (some (bareChan 6), []) := by
  decide

/-- C6 (amended): degraded-input tolerance of the parser:
`NNHT40-`/`NNHT40+` whose channel lacks the matching flag still yields
a descriptor with `chan_type` set, with only informational
diagnostics (at least one); a leading integer followed by an
unrecognized scanset suffix (one not starting with `-`) parses as bare
`NN` with one informational diagnostic; a suffix starting with `-`
parses as bare `NN` silently; an input with no leading integer fails
(`NULL`). -/
theorem C6_degraded_inputs (table : List wifi_channel) :
    (∀ n : Nat, n < 2 ^ 32 →
      (∃ e ∈ table, chanMatches e n = true ∧ e.flag_ht40minus = false) →
      (chantranslate_callback table ⟨natToDec n ++ "HT40-".toList⟩).1 =
          some (ht40Chan n nl80211_chan_ht40minus) ∧
      (chantranslate_callback table ⟨natToDec n ++ "HT40-".toList⟩).2 ≠ [] ∧
      (∀ m ∈ (chantranslate_callback table ⟨natToDec n ++ "HT40-".toList⟩).2,
        m = MsgFlag.info)) ∧
    (∀ n : Nat, n < 2 ^ 32 →
      (∃ e ∈ table, chanMatches e n = true ∧ e.flag_ht40plus = false) →
      (chantranslate_callback table ⟨natToDec n ++ "HT40+".toList⟩).1 =
          some (ht40Chan n nl80211_chan_ht40plus) ∧
      (chantranslate_callback table ⟨natToDec n ++ "HT40+".toList⟩).2 ≠ [] ∧
      (∀ m ∈ (chantranslate_callback table ⟨natToDec n ++ "HT40+".toList⟩).2,
        m = MsgFlag.info)) ∧
    (∀ (n : Nat) (ty : List Char), n < 2 ^ 32 →
      ty ≠ [] → ty.length ≤ 15 → (∀ c ∈ ty, notDash c = true) →
      noLeadingDigit ty = true → "HT40".toList.isPrefixOf ty = false →
      caseEq ty "w5".toList = false → caseEq ty "w10".toList = false →
      caseEq ty "vht80".toList = false → caseEq ty "vht160".toList = false →
      chantranslate_callback table ⟨natToDec n ++ ty⟩ =
        (some (bareChan n), [MsgFlag.info])) ∧
    (∀ (n : Nat) (tail : List Char), n < 2 ^ 32 →
      chantranslate_callback table ⟨natToDec n ++ '-' :: tail⟩ =
        (some (bareChan n), [])) ∧
    (∀ cs : List Char, noLeadingDigit cs = true →
      chantranslate_callback table ⟨cs⟩ = (none, [MsgFlag.error])) := by
  refine ⟨?_, ?_, ?_, ?_, ?_⟩
  · intro n hn hex
    obtain ⟨e, he, hm, hf⟩ := hex
    have hcore :
        chantranslateCore table (natToDec n ++ ("HT40".toList ++ '-' :: [])) =
          (some (ht40Chan n nl80211_chan_ht40minus),
           ht40Msgs table n wifi_channel.flag_ht40minus) := by
      rw [chantranslate_ht40 table hn '-' [], if_pos rfl]
    refine ⟨?_, ?_, ?_⟩
    · show (chantranslateCore table (natToDec n ++ ("HT40".toList ++ '-' :: []))).1 = _
      rw [hcore]
    · show (chantranslateCore table (natToDec n ++ ("HT40".toList ++ '-' :: []))).2 ≠ []
      rw [hcore]
      exact ht40Msgs_ne_nil table n wifi_channel.flag_ht40minus e he hm hf
    · show ∀ m ∈ (chantranslateCore table
          (natToDec n ++ ("HT40".toList ++ '-' :: []))).2, m = MsgFlag.info
      rw [hcore]
      exact ht40Msgs_all_info table n wifi_channel.flag_ht40minus
  · intro n hn hex
    obtain ⟨e, he, hm, hf⟩ := hex
    have hcore :
        chantranslateCore table (natToDec n ++ ("HT40".toList ++ '+' :: [])) =
          (some (ht40Chan n nl80211_chan_ht40plus),
           ht40Msgs table n wifi_channel.flag_ht40plus) := by
      rw [chantranslate_ht40 table hn '+' [], if_neg (by decide), if_pos rfl]
    refine ⟨?_, ?_, ?_⟩
    · show (chantranslateCore table (natToDec n ++ ("HT40".toList ++ '+' :: []))).1 = _
      rw [hcore]
    · show (chantranslateCore table (natToDec n ++ ("HT40".toList ++ '+' :: []))).2 ≠ []
      rw [hcore]
      exact ht40Msgs_ne_nil table n wifi_channel.flag_ht40plus e he hm hf
    · show ∀ m ∈ (chantranslateCore table
          (natToDec n ++ ("HT40".toList ++ '+' :: []))).2, m = MsgFlag.info
      rw [hcore]
      exact ht40Msgs_all_info table n wifi_channel.flag_ht40plus
  · intro n ty hn h1 h2 h3 h4 hpre hw5 hw10 hv80 hv160
    show chantranslateCore table (natToDec n ++ ty) = _
    exact chantranslate_unknown_suffix table hn h1 h2 h3 h4 hpre hw5 hw10 hv80 hv160
  · intro n tail hn
    show chantranslateCore table (natToDec n ++ '-' :: tail) = _
    exact chantranslate_dash_suffix table hn tail
  · intro cs hcs
    show chantranslateCore table cs = _
    exact chantranslate_no_digit table hcs

/-- Witness for C6 (amended): channel 36 lacks HT40-, channel 165
lacks HT40+, `6Q` is an unknown suffix, `6-7` stops at the dash, and
`garbage` has no leading integer. -/
theorem C6_degraded_inputs_witness :
    ((chantranslate_callback wifi_ht_channels
        ⟨natToDec 36 ++ "HT40-".toList⟩).1 =
      some (ht40Chan 36 nl80211_chan_ht40minus)) ∧
    ((chantranslate_callback wifi_ht_channels
        ⟨natToDec 36 ++ "HT40-".toList⟩).2 ≠ []) ∧
    ((chantranslate_callback wifi_ht_channels
        ⟨natToDec 165 ++ "HT40+".toList⟩).1 =
      some (ht40Chan 165 nl80211_chan_ht40plus)) ∧
    (chantranslate_callback wifi_ht_channels ⟨natToDec 6 ++ "Q".toList⟩ =
      (some (bareChan 6), [MsgFlag.info])) ∧
    (chantranslate_callback wifi_ht_channels ⟨natToDec 6 ++ '-' :: ['7']⟩ =
      (some (bareChan 6), [])) ∧
    (chantranslate_callback wifi_ht_channels ⟨"garbage".toList⟩ =
      (none, [MsgFlag.error])) := by
  have hc := C6_degraded_inputs wifi_ht_channels
  have hminus := hc.1 36 (by decide)
    ⟨{ chan := 36, freq := 5180, flag_ht40minus := false, flag_ht40plus := true,
       flag_ht80 := true, flag_ht160 := true, freq80 := 5210, freq160 := 5250 },
     by decide, by decide, by decide⟩
  have hplus := hc.2.1 165 (by decide)
    ⟨{ chan := 165, freq := 5825, flag_ht40minus := false, flag_ht40plus := false,
       flag_ht80 := false, flag_ht160 := false, freq80 := 0, freq160 := 0 },
     by decide, by decide, by decide⟩
  exact ⟨hminus.1, hminus.2.1, hplus.1,
    hc.2.2.1 6 "Q".toList (by decide) (by decide) (by decide) (by decide)
      (by decide) (by decide) (by decide) (by decide) (by decide) (by decide),
    hc.2.2.2.1 6 ['7'] (by decide),
    hc.2.2.2.2 "garbage".toList (by decide)⟩

end KismetWifi
